import Mathlib

/-!
Shallow embedding of the `script-executor` service (Go) in Lean 4, covering the
execution pipeline: dynamic parameter bag, configuration loading, script
loading/validation, approval store and checker, execution-context construction,
Kubernetes Job building, and the `Execute` orchestration.

Conventions of the embedding:
* Go `map[string]T` values are modelled as association lists (`List (String × T)`)
  with first-match lookup; Go map iteration is modelled in list order (map-key
  ordering is not contractually significant).
* Go `time.Duration` is an `Int` count of nanoseconds; `resource.Quantity` is an
  `Int` count of milli-units (1 CPU = 1000, 1 byte = 1000).  `resource.MustParse`
  (which panics on bad input) is modelled by an `Option`-valued parser covering
  the decimal/binary-suffix forms the service uses.
* External I/O (Kubernetes API reads, clock, job submission, job monitoring) is
  supplied as explicit state/oracle inputs, so every function is pure.
-/

namespace SE

/-- Decidable equality for `Except` results. -/
instance {ε α : Type} [DecidableEq ε] [DecidableEq α] : DecidableEq (Except ε α) := fun a b =>
  match a, b with
  | .error e1, .error e2 =>
    if h : e1 = e2 then .isTrue (congrArg Except.error h)
    else .isFalse (fun he => h (Except.error.inj he))
  | .error _, .ok _ => .isFalse (fun he => Except.noConfusion he)
  | .ok _, .error _ => .isFalse (fun he => Except.noConfusion he)
  | .ok a1, .ok a2 =>
    if h : a1 = a2 then .isTrue (congrArg Except.ok h)
    else .isFalse (fun he => h (Except.ok.inj he))

/-! ### Dynamic parameter bag (`structpb.Struct` / `structpb.Value`) -/

/-- Model of `structpb.Value`: a dynamically-typed protobuf value. -/
inductive PValue where
  | nullV
  | numV (n : Int)
  | strV (s : String)
  | boolV (b : Bool)
  | structV (fields : List (String × PValue))
  | listV (vs : List PValue)

/-- Model of `structpb.Struct`: a string-keyed field map. -/
abbrev PStruct := List (String × PValue)

/-- Association-list lookup, modelling Go map indexing `m[key]`. -/
def pLookup (m : PStruct) (key : String) : Option PValue :=
  match m with
  | [] => none
  | (k, v) :: rest => if k = key then some v else pLookup rest key

/-- Model of `Value.GetStringValue`: the string payload, or `""` for other kinds. -/
def PValue.getStringValue : PValue → String
  | .strV s => s
  | _ => ""

/-- Model of `Value.GetBoolValue`. -/
def PValue.getBoolValue : PValue → Bool
  | .boolV b => b
  | _ => false

/-- Model of `Value.GetNumberValue` (restricted to integral values). -/
def PValue.getNumberValue : PValue → Int
  | .numV n => n
  | _ => 0

/-- Model of `Value.GetStructValue`: `nil` for non-struct values. -/
def PValue.getStructValue : PValue → Option PStruct
  | .structV f => some f
  | _ => none

/-- Model of `Value.GetListValue`. -/
def PValue.getListValue : PValue → Option (List PValue)
  | .listV vs => some vs
  | _ => none

/-- Embeds `getString` from `internal/execution/params.go` (also duplicated in
`internal/script/loader.go`): string field with a default for absent, nil,
non-string or empty values.  A nil `*structpb.Struct` is modelled by `[]`. -/
def getString (m : PStruct) (key def_ : String) : String :=
  match pLookup m key with
  | none => def_
  | some f =>
    let s := f.getStringValue
    if s = "" then def_ else s

/-- Embeds `getMap` from `params.go`/`loader.go`. -/
def getMap (m : PStruct) (key : String) : Option PStruct :=
  match pLookup m key with
  | none => none
  | some f => f.getStructValue

/-- Embeds `getList` from `params.go`. -/
def getList (m : PStruct) (key : String) : Option (List PValue) :=
  match pLookup m key with
  | none => none
  | some f => f.getListValue

/-- Embeds `getStringSlice` from `params.go`. -/
def getStringSlice (m : PStruct) (key : String) : Option (List String) :=
  match getList m key with
  | none => none
  | some l => some (l.map PValue.getStringValue)

/-- Embeds `getBool` from `params.go`. -/
def getBool (m : PStruct) (key : String) : Bool :=
  match pLookup m key with
  | none => false
  | some f => f.getBoolValue

/-- Embeds `getInt` from `params.go`. -/
def getInt (m : PStruct) (key : String) : Int :=
  match pLookup m key with
  | none => 0
  | some f => f.getNumberValue

/-! ### String scanning helpers

Structurally recursive character-list implementations of the string operations
the embedding needs (so that every definition evaluates by kernel reduction).
They implement the standard ASCII semantics of the corresponding Go
`strings`/`strconv` operations. -/

/-- Whether the first list is a prefix of the second. -/
def charsLeadWith : List Char → List Char → Bool
  | [], _ => true
  | _ :: _, [] => false
  | p :: ps, c :: cs => if p = c then charsLeadWith ps cs else false

/-- Model of `strings.HasPrefix` / `String.startsWith`. -/
def strStarts (s p : String) : Bool :=
  charsLeadWith p.data s.data

/-- Model of `strings.HasSuffix` / `String.endsWith`. -/
def strEnds (s p : String) : Bool :=
  charsLeadWith p.data.reverse s.data.reverse

/-- Longest prefix satisfying a predicate. -/
def charsTakeWhile (f : Char → Bool) : List Char → List Char
  | [] => []
  | c :: cs => if f c then c :: charsTakeWhile f cs else []

/-- Remainder after `charsTakeWhile`. -/
def charsDropWhile (f : Char → Bool) : List Char → List Char
  | [] => []
  | c :: cs => if f c then charsDropWhile f cs else c :: cs

/-- ASCII decimal digit. -/
def isDigitChar (c : Char) : Bool :=
  48 ≤ c.toNat ∧ c.toNat ≤ 57

/-- ASCII letter. -/
def isAlphaChar (c : Char) : Bool :=
  (65 ≤ c.toNat ∧ c.toNat ≤ 90) ∨ (97 ≤ c.toNat ∧ c.toNat ≤ 122)

/-- ASCII whitespace (the class Go's `strings.Fields`/`TrimSpace` use, on the
ASCII range). -/
def isSpaceChar (c : Char) : Bool :=
  c = ' ' ∨ c = '\t' ∨ c = '\n' ∨ c = '\r' ∨ c.toNat = 11 ∨ c.toNat = 12

/-- Decimal value of an all-digit character list (`none` when empty or when a
non-digit appears) — model of `strconv` digit parsing. -/
def digitsToNat : List Char → Option Nat
  | [] => none
  | cs =>
    if cs.all isDigitChar then
      some (cs.foldl (fun a c => a * 10 + (c.toNat - 48)) 0)
    else none

/-- Model of `strings.Split` with a one-character separator. -/
def charsSplitOnChar (sep : Char) : List Char → List Char → List (List Char)
  | [], acc => [acc.reverse]
  | c :: cs, acc =>
    if c = sep then acc.reverse :: charsSplitOnChar sep cs []
    else charsSplitOnChar sep cs (c :: acc)

/-- Newline split of a string (model of `strings.Split(s, "\n")`). -/
def splitNewlines (s : String) : List String :=
  (charsSplitOnChar '\n' s.data []).map String.mk

/-- Model of `strings.TrimSpace` (ASCII whitespace). -/
def strTrim (s : String) : String :=
  String.mk ((charsDropWhile isSpaceChar (charsDropWhile isSpaceChar s.data).reverse).reverse)

/-- Split at whitespace characters. -/
def charsSplitSpaces : List Char → List Char → List (List Char)
  | [], acc => [acc.reverse]
  | c :: cs, acc =>
    if isSpaceChar c then acc.reverse :: charsSplitSpaces cs []
    else charsSplitSpaces cs (c :: acc)

/-- Split on whitespace runs and drop empties — model of `strings.Fields`. -/
def strFields (s : String) : List String :=
  ((charsSplitSpaces s.data []).map String.mk).filter (fun f => f ≠ "")

/-- Replace every occurrence of one character — model of
`strings.ReplaceAll` for one-character patterns. -/
def strReplaceChar (a b : Char) (s : String) : String :=
  String.mk (s.data.map (fun c => if c = a then b else c))

/-- ASCII lower-casing — the folding `strings.EqualFold` performs on the
service's principal names. -/
def strLower (s : String) : String :=
  String.mk (s.data.map (fun c =>
    if 65 ≤ c.toNat ∧ c.toNat ≤ 90 then Char.ofNat (c.toNat + 32) else c))

/-! ### Resource quantities (`k8s.io/apimachinery` `resource.Quantity`)

`Modelled from the spec:` the quantity grammar is the platform library's; the
service only ever feeds it plain decimal numbers with an optional suffix from
`m`, `k`, `M`, `G`, `T`, `Ki`, `Mi`, `Gi`, `Ti`, so the parser covers exactly
those forms (value returned in milli-units).  Inputs outside this subset parse
to `none`, which the callers treat like a `MustParse` panic. -/

/-- Scale factor (in milli-units) for a quantity suffix. -/
def suffixScale : String → Option Int
  | "" => some 1000
  | "m" => some 1
  | "k" => some (1000 * 1000)
  | "M" => some (1000 * 1000000)
  | "G" => some (1000 * 1000000000)
  | "T" => some (1000 * 1000000000000)
  | "Ki" => some (1000 * 1024)
  | "Mi" => some (1000 * 1024 * 1024)
  | "Gi" => some (1000 * 1024 * 1024 * 1024)
  | "Ti" => some (1000 * 1024 * 1024 * 1024 * 1024)
  | _ => none

/-- Parse a resource quantity string into milli-units. -/
def parseQuantity (s : String) : Option Int :=
  let digits := charsTakeWhile isDigitChar s.data
  let suffix := String.mk (charsDropWhile isDigitChar s.data)
  match digitsToNat digits with
  | none => none
  | some n =>
    match suffixScale suffix with
    | none => none
    | some sc => some (n * sc)

/-! ### Durations (`time.Duration`, `time.ParseDuration`)

`Modelled from the spec:` `time.ParseDuration` is the Go standard library; the
model covers the subset the service's configuration and requests use — a
nonempty sequence of `<integer><unit>` groups with units `ns`, `us`, `ms`,
`s`, `m`, `h` (no sign, no fractions).  The result is in nanoseconds. -/

/-- Nanoseconds per duration unit. -/
def unitScale : String → Option Int
  | "ns" => some 1
  | "us" => some 1000
  | "ms" => some 1000000
  | "s" => some 1000000000
  | "m" => some 60000000000
  | "h" => some 3600000000000
  | _ => none

/-- Consume one `<integer><unit>` group from the front; return its value in
nanoseconds and the rest of the string. -/
def durGroup (s : String) : Option (Int × String) :=
  let digits := charsTakeWhile isDigitChar s.data
  if digits = [] then none
  else
    let rest := charsDropWhile isDigitChar s.data
    let unit := String.mk (charsTakeWhile isAlphaChar rest)
    match digitsToNat digits, unitScale unit with
    | some n, some sc => some (n * sc, String.mk (charsDropWhile isAlphaChar rest))
    | _, _ => none

/-- Fuel-driven loop over duration groups. -/
def durGroups : Nat → String → Int → Option Int
  | 0, _, _ => none
  | fuel + 1, s, acc =>
    match durGroup s with
    | none => none
    | some (v, rest) =>
      if rest = "" then some (acc + v) else durGroups fuel rest (acc + v)

/-- Model of `time.ParseDuration` on the supported subset (nanoseconds). -/
def parseGoDuration (s : String) : Option Int :=
  if s = "" then none
  else if s = "0" then some 0
  else durGroups (s.data.length + 1) s 0

/-- Embeds `parseDuration` from `internal/execution/params.go`: the empty string
parses to a zero duration, anything else goes through `time.ParseDuration`. -/
def parseDuration (s : String) : Except String Int :=
  if s = "" then .ok 0
  else
    match parseGoDuration s with
    | some d => .ok d
    | none => .error ("time: invalid duration " ++ s)

/-! ### Configuration (`internal/config/config.go`) -/

/-- Embeds `GRPCConfig`. -/
structure GRPCConfig where
  port : Int
  maxMessageSize : Int
deriving DecidableEq, Repr

/-- Embeds `JobDefaultsConfig`. -/
structure JobDefaultsConfig where
  ttlSecondsAfterFinished : Int
  backoffLimit : Int
  activeDeadlineSeconds : Int
deriving DecidableEq, Repr

/-- Embeds `ResourceRequests` (request quantity strings). -/
structure ResourceRequestsCfg where
  cpu : String
  memory : String
deriving DecidableEq, Repr

/-- Embeds `ResourceLimits` (limit quantity strings). -/
structure ResourceLimitsCfg where
  cpu : String
  memory : String
  ephemeralStorage : String
deriving DecidableEq, Repr

/-- Embeds `ResourceConfig`. -/
structure ResourceConfig where
  requests : ResourceRequestsCfg
  limits : ResourceLimitsCfg
deriving DecidableEq, Repr

/-- Embeds `KubernetesConfig`. -/
structure KubernetesConfig where
  nspace : String
  serviceAccount : String
  jobDefaults : JobDefaultsConfig
  defaultResources : ResourceConfig
  maxResources : ResourceConfig
deriving DecidableEq, Repr

/-- Embeds `ImageCatalogConfig`. -/
structure ImageCatalogConfig where
  enabled : Bool
  configMapName : String
  configMapNamespace : String
deriving DecidableEq, Repr

/-- Embeds `ImageConfig`. -/
structure ImageConfig where
  defaultImage : String
  defaultImagePullSecret : String
  defaultImagePullPolicy : String
  approvedImages : List String
  blockedImages : List String
  catalog : ImageCatalogConfig
  verifyImageAccess : Bool
  scanImagesOnApproval : Bool
deriving DecidableEq, Repr

/-- Embeds `SecurityConfig`. -/
structure SecurityConfig where
  requiredPermission : String
  blockedCommands : List String
  maxScriptSize : Int
  maxScriptLines : Int
  defaultTimeout : String
  maxTimeout : String
  runAsNonRoot : Bool
  runAsUser : Int
  fsGroup : Int
  readOnlyRootFilesystem : Bool
  allowPrivilegeEscalation : Bool
  dropAllCapabilities : Bool
deriving DecidableEq, Repr

/-- Embeds `ApprovalStorageConfig`. -/
structure ApprovalStorageConfig where
  typ : String
  configMapName : String
  configMapNamespace : String
deriving DecidableEq, Repr

/-- Embeds `AutoApproveRule`. -/
structure AutoApproveRule where
  userGroup : String
  scriptPattern : String
deriving DecidableEq, Repr

/-- Embeds `AutoApproveConfig`. -/
structure AutoApproveConfig where
  enabled : Bool
  rules : List AutoApproveRule
deriving DecidableEq, Repr

/-- Embeds `ApprovalConfig`. -/
structure ApprovalConfig where
  enabled : Bool
  storage : ApprovalStorageConfig
  approvalTimeout : String
  defaultApprovers : List String
  autoApprove : AutoApproveConfig
deriving DecidableEq, Repr

/-- Embeds `SecretRef`. -/
structure SecretRef where
  name : String
  key : String
deriving DecidableEq, Repr

/-- Embeds `SIEMConfig`. -/
structure SIEMConfig where
  enabled : Bool
  endpoint : String
  tokenSecret : SecretRef
deriving DecidableEq, Repr

/-- Embeds `AuditConfig`. -/
structure AuditConfig where
  enabled : Bool
  logFile : String
  siem : SIEMConfig
  logScriptContent : Bool
  logScriptOutput : Bool
  logEnvironment : Bool
deriving DecidableEq, Repr

/-- Embeds `MetricsConfig`. -/
structure MetricsConfig where
  enabled : Bool
  port : Int
  path : String
deriving DecidableEq, Repr

/-- Embeds `PushgatewayConfig`. -/
structure PushgatewayConfig where
  enabled : Bool
  url : String
deriving DecidableEq, Repr

/-- Embeds `MonitoringConfig`. -/
structure MonitoringConfig where
  metrics : MetricsConfig
  pushgateway : PushgatewayConfig
deriving DecidableEq, Repr

/-- Embeds `ScriptExecutorConfig`. -/
structure ScriptExecutorConfig where
  grpc : GRPCConfig
  kubernetes : KubernetesConfig
  image : ImageConfig
  security : SecurityConfig
  approval : ApprovalConfig
  audit : AuditConfig
  monitoring : MonitoringConfig
deriving DecidableEq, Repr

/-- Embeds `Config` (root). -/
structure Config where
  scriptExecutor : ScriptExecutorConfig
deriving DecidableEq, Repr

/-- The process environment, as a partial map from variable names to values. -/
abbrev EnvMap := String → Option String

/-- Embeds `getEnvOrDefault`. -/
def getEnvOrDefault (env : EnvMap) (key defaultValue : String) : String :=
  match env key with
  | some v => if v = "" then defaultValue else v
  | none => defaultValue

/-- Model of `os.Getenv` (empty string for an unset variable). -/
def getEnv (env : EnvMap) (key : String) : String :=
  match env key with
  | some v => v
  | none => ""

/-- Embeds `defaultConfig` from `config.go`. -/
def defaultConfig (env : EnvMap) : Config :=
  { scriptExecutor :=
    { grpc := { port := 50051, maxMessageSize := 10 * 1024 * 1024 }
      kubernetes :=
      { nspace := getEnvOrDefault env "KUBERNETES_NAMESPACE" "opscontrolroom-system"
        serviceAccount := "script-executor-runner"
        jobDefaults :=
        { ttlSecondsAfterFinished := 300, backoffLimit := 0, activeDeadlineSeconds := 1800 }
        defaultResources :=
        { requests := { cpu := "100m", memory := "64Mi" }
          limits := { cpu := "500m", memory := "256Mi", ephemeralStorage := "1Gi" } }
        maxResources :=
        { requests := { cpu := "", memory := "" }
          limits := { cpu := "4000m", memory := "8Gi", ephemeralStorage := "20Gi" } } }
      image :=
      { defaultImage := getEnvOrDefault env "DEFAULT_IMAGE" "alpine:latest"
        defaultImagePullSecret := getEnvOrDefault env "DEFAULT_IMAGE_PULL_SECRET" ""
        defaultImagePullPolicy := "IfNotPresent"
        approvedImages := []
        blockedImages := []
        catalog :=
        { enabled := true
          configMapName := "script-image-catalog"
          configMapNamespace := "opscontrolroom-system" }
        verifyImageAccess := false
        scanImagesOnApproval := false }
      security :=
      { requiredPermission := "executors.use.script"
        blockedCommands :=
          ["rm", "dd", "mkfs", "fdisk", "mkswap",
           "sudo", "su", "setuid",
           "reboot", "shutdown", "init", "systemctl",
           "nmap", "masscan",
           "kill", "killall", "pkill"]
        maxScriptSize := 524288
        maxScriptLines := 1000
        defaultTimeout := "5m"
        maxTimeout := "30m"
        runAsNonRoot := true
        runAsUser := 65534
        fsGroup := 65534
        readOnlyRootFilesystem := true
        allowPrivilegeEscalation := false
        dropAllCapabilities := true }
      approval :=
      { enabled := true
        storage :=
        { typ := "configmap"
          configMapName := "script-approvals"
          configMapNamespace := "opscontrolroom-system" }
        approvalTimeout := "24h"
        defaultApprovers := ["sre-leads"]
        autoApprove := { enabled := false, rules := [] } }
      audit :=
      { enabled := true
        logFile := "/var/log/ocr/script-audit.log"
        siem := { enabled := false, endpoint := "", tokenSecret := { name := "", key := "" } }
        logScriptContent := true
        logScriptOutput := true
        logEnvironment := false }
      monitoring :=
      { metrics := { enabled := true, port := 9090, path := "/metrics" }
        pushgateway := { enabled := false, url := "" } } } }

/-- Embeds `mergeConfig` from `config.go`, written fieldwise: each Go statement
conditionally overwrites exactly one destination field (the job-defaults pair
shares one condition), so the sequential mutation is equivalent to this record
expression. -/
def mergeConfig (dst src : Config) : Config :=
  let d := dst.scriptExecutor
  let s := src.scriptExecutor
  { scriptExecutor :=
    { d with
      grpc :=
      { port := if s.grpc.port ≠ 0 then s.grpc.port else d.grpc.port
        maxMessageSize :=
          if s.grpc.maxMessageSize ≠ 0 then s.grpc.maxMessageSize else d.grpc.maxMessageSize }
      kubernetes :=
      { d.kubernetes with
        nspace := if s.kubernetes.nspace ≠ "" then s.kubernetes.nspace else d.kubernetes.nspace
        serviceAccount :=
          if s.kubernetes.serviceAccount ≠ "" then s.kubernetes.serviceAccount
          else d.kubernetes.serviceAccount
        jobDefaults :=
        { ttlSecondsAfterFinished :=
            if s.kubernetes.jobDefaults.ttlSecondsAfterFinished ≠ 0 then
              s.kubernetes.jobDefaults.ttlSecondsAfterFinished
            else d.kubernetes.jobDefaults.ttlSecondsAfterFinished
          backoffLimit :=
            if s.kubernetes.jobDefaults.backoffLimit ≠ 0 ∨
               s.kubernetes.jobDefaults.activeDeadlineSeconds ≠ 0 then
              s.kubernetes.jobDefaults.backoffLimit
            else d.kubernetes.jobDefaults.backoffLimit
          activeDeadlineSeconds :=
            if s.kubernetes.jobDefaults.backoffLimit ≠ 0 ∨
               s.kubernetes.jobDefaults.activeDeadlineSeconds ≠ 0 then
              s.kubernetes.jobDefaults.activeDeadlineSeconds
            else d.kubernetes.jobDefaults.activeDeadlineSeconds } }
      image :=
      { d.image with
        defaultImage :=
          if s.image.defaultImage ≠ "" then s.image.defaultImage else d.image.defaultImage
        defaultImagePullSecret :=
          if s.image.defaultImagePullSecret ≠ "" then s.image.defaultImagePullSecret
          else d.image.defaultImagePullSecret
        approvedImages :=
          if s.image.approvedImages.length > 0 then s.image.approvedImages
          else d.image.approvedImages
        blockedImages :=
          if s.image.blockedImages.length > 0 then s.image.blockedImages
          else d.image.blockedImages }
      security :=
      { d.security with
        maxScriptSize :=
          if s.security.maxScriptSize ≠ 0 then s.security.maxScriptSize
          else d.security.maxScriptSize
        maxScriptLines :=
          if s.security.maxScriptLines ≠ 0 then s.security.maxScriptLines
          else d.security.maxScriptLines }
      approval :=
      { d.approval with
        storage :=
        { d.approval.storage with
          configMapName :=
            if s.approval.storage.configMapName ≠ "" then s.approval.storage.configMapName
            else d.approval.storage.configMapName
          configMapNamespace :=
            if s.approval.storage.configMapNamespace ≠ "" then
              s.approval.storage.configMapNamespace
            else d.approval.storage.configMapNamespace } }
      audit :=
      { d.audit with
        logFile := if s.audit.logFile ≠ "" then s.audit.logFile else d.audit.logFile }
      monitoring :=
      { d.monitoring with
        metrics :=
        { d.monitoring.metrics with
          port :=
            if s.monitoring.metrics.port ≠ 0 then s.monitoring.metrics.port
            else d.monitoring.metrics.port } } } }

/-- Embeds `applyEnvOverrides` from `config.go` (`strconv.Atoi` modelled by
`String.toInt?` on the decimal subset). -/
def applyEnvOverrides (cfg : Config) (env : EnvMap) : Config :=
  let c := cfg.scriptExecutor
  let c1 :=
    if getEnv env "GRPC_PORT" ≠ "" then
      match (getEnv env "GRPC_PORT").toInt? with
      | some p => { c with grpc := { c.grpc with port := p } }
      | none => c
    else c
  let c2 :=
    if getEnv env "KUBERNETES_NAMESPACE" ≠ "" then
      { c1 with kubernetes := { c1.kubernetes with nspace := getEnv env "KUBERNETES_NAMESPACE" } }
    else c1
  let c3 :=
    if getEnv env "DEFAULT_IMAGE" ≠ "" then
      { c2 with image := { c2.image with defaultImage := getEnv env "DEFAULT_IMAGE" } }
    else c2
  { scriptExecutor := c3 }

/-- Embeds `Load` from `config.go` on its success paths: start from the defaults,
merge the parsed file configuration when `CONFIG_PATH` is set (the parsed YAML
is supplied directly as `fileCfg`), then apply environment overrides. -/
def loadConfig (env : EnvMap) (fileCfg : Option Config) : Config :=
  let cfg := defaultConfig env
  let cfg :=
    match fileCfg with
    | some f => mergeConfig cfg f
    | none => cfg
  applyEnvOverrides cfg env

/-- Embeds `Config.DefaultTimeout` (nanoseconds; parse failure yields 5 minutes). -/
def Config.defaultTimeoutDur (c : Config) : Int :=
  match parseGoDuration c.scriptExecutor.security.defaultTimeout with
  | some d => d
  | none => 5 * 60000000000

/-- Embeds `Config.MaxTimeout` (nanoseconds; parse failure yields 30 minutes). -/
def Config.maxTimeoutDur (c : Config) : Int :=
  match parseGoDuration c.scriptExecutor.security.maxTimeout with
  | some d => d
  | none => 30 * 60000000000

/-! ### Resource requirements and `buildResources` (`src/unnamed/part_002`) -/

/-- Model of `corev1.ResourceList` restricted to the three keys the service
writes (`cpu`, `memory`, `ephemeral-storage`); quantities in milli-units. -/
structure ResourceList where
  cpu : Option Int
  memory : Option Int
  ephemeralStorage : Option Int
deriving DecidableEq, Repr

/-- Model of `corev1.ResourceRequirements`. -/
structure ResourceRequirements where
  requests : ResourceList
  limits : ResourceList
deriving DecidableEq, Repr

/-- The two empty resource lists `buildResources` starts from. -/
def emptyResources : ResourceRequirements :=
  { requests := { cpu := none, memory := none, ephemeralStorage := none }
    limits := { cpu := none, memory := none, ephemeralStorage := none } }

/-- One `if s != "" { target = resource.MustParse(s) }` step; `none` models the
panic of `MustParse` on an unparsable quantity. -/
def mustParseInto (s : String) (f : Int → ResourceRequirements → ResourceRequirements)
    (r : ResourceRequirements) : Option ResourceRequirements :=
  if s = "" then some r
  else
    match parseQuantity s with
    | some q => some (f q r)
    | none => none

/-- One capping step of `buildResources`: when a maximum is configured and the
present limit compares greater, replace it by the maximum. -/
def capLimit (maxS : String) (get : ResourceList → Option Int)
    (set : Int → ResourceRequirements → ResourceRequirements)
    (r : ResourceRequirements) : Option ResourceRequirements :=
  if maxS = "" then some r
  else
    match parseQuantity maxS with
    | none => none
    | some mx =>
      match get r.limits with
      | some lim => if lim > mx then some (set mx r) else some r
      | none => some r

/-- Embeds `buildResources` from `src/unnamed/part_002`: defaults from
configuration, overrides from the request's `resources` sub-bag, then caps —
the code caps only the cpu and memory limits. -/
def buildResources (params : PStruct) (cfg : Config) : Option ResourceRequirements := do
  let defaultReqs := cfg.scriptExecutor.kubernetes.defaultResources
  let defaultLimits := cfg.scriptExecutor.kubernetes.maxResources.limits
  let r := emptyResources
  let r ← mustParseInto defaultReqs.requests.cpu
    (fun q r => { r with requests := { r.requests with cpu := some q } }) r
  let r ← mustParseInto defaultReqs.requests.memory
    (fun q r => { r with requests := { r.requests with memory := some q } }) r
  let r ← mustParseInto defaultReqs.limits.cpu
    (fun q r => { r with limits := { r.limits with cpu := some q } }) r
  let r ← mustParseInto defaultReqs.limits.memory
    (fun q r => { r with limits := { r.limits with memory := some q } }) r
  let r ← mustParseInto defaultReqs.limits.ephemeralStorage
    (fun q r => { r with limits := { r.limits with ephemeralStorage := some q } }) r
  let r ←
    match getMap params "resources" with
    | none => some r
    | some res => do
      let r ←
        match getMap res "requests" with
        | none => some r
        | some reqs => do
          let r ← mustParseInto (getString reqs "cpu" "")
            (fun q r => { r with requests := { r.requests with cpu := some q } }) r
          mustParseInto (getString reqs "memory" "")
            (fun q r => { r with requests := { r.requests with memory := some q } }) r
      match getMap res "limits" with
      | none => some r
      | some lims => do
        let r ← mustParseInto (getString lims "cpu" "")
          (fun q r => { r with limits := { r.limits with cpu := some q } }) r
        let r ← mustParseInto (getString lims "memory" "")
          (fun q r => { r with limits := { r.limits with memory := some q } }) r
        mustParseInto (getString lims "ephemeral_storage" "")
          (fun q r => { r with limits := { r.limits with ephemeralStorage := some q } }) r
  let r ← capLimit defaultLimits.cpu (fun l => l.cpu)
    (fun q r => { r with limits := { r.limits with cpu := some q } }) r
  capLimit defaultLimits.memory (fun l => l.memory)
    (fun q r => { r with limits := { r.limits with memory := some q } }) r

/-! ### UTF-8 byte view of strings

`Modelled from the spec:` Go strings are byte slices; `len(s)` counts UTF-8
bytes and `crypto/sha256` hashes them.  The encoder below is the standard
UTF-8 scheme over Lean's unicode scalar values. -/

/-- UTF-8 encoding of one unicode scalar value, as byte values. -/
def utf8EncodeCharNat (c : Char) : List Nat :=
  let n := c.toNat
  if n < 128 then [n]
  else if n < 2048 then [192 + n / 64, 128 + n % 64]
  else if n < 65536 then [224 + n / 4096, 128 + (n / 64) % 64, 128 + n % 64]
  else [240 + n / 262144, 128 + (n / 4096) % 64, 128 + (n / 64) % 64, 128 + n % 64]

/-- UTF-8 bytes of a string. -/
def utf8Bytes (s : String) : List Nat :=
  (s.data.map utf8EncodeCharNat).flatten

/-! ### Script validator (`internal/security`, `src/unnamed/part_004`) -/

/-- Embeds `ScriptValidator`. -/
structure ScriptValidator where
  blockedCommands : List String
  allowedCommands : List String
  maxSize : Int
  maxLines : Int
deriving DecidableEq, Repr

/-- Embeds `NewScriptValidator`: non-positive caps fall back to 500 KiB / 1000. -/
def mkScriptValidator (blocked allowed : List String) (maxSize maxLines : Int) :
    ScriptValidator :=
  { blockedCommands := blocked
    allowedCommands := allowed
    maxSize := if maxSize ≤ 0 then 524288 else maxSize
    maxLines := if maxLines ≤ 0 then 1000 else maxLines }

/-- Model of `strings.TrimPrefix`. -/
def trimPrefixStr (s p : String) : String :=
  if strStarts s p then s.drop p.length else s

/-- Model of `strings.TrimSuffix` for a one-character suffix. -/
def trimStarSuffix (p : String) : String :=
  if strEnds p "*" then p.dropRight 1 else p

/-- Embeds `matchesCommand`: exact match, or prefix match when the pattern ends
in a star. -/
def matchesCommand (cmd pattern : String) : Bool :=
  if cmd = pattern then true
  else if strEnds pattern "*" then strStarts cmd (trimStarSuffix pattern)
  else false

/-- Model of `bufio.ScanLines` applied to a whole string: newline-separated
tokens, no final empty token after a trailing newline, trailing `\r` dropped. -/
def scanLines (s : String) : List String :=
  let ls := splitNewlines s
  let ls :=
    match ls.getLast? with
    | some "" => ls.dropLast
    | _ => ls
  ls.map (fun l => if strEnds l "\r" then l.dropRight 1 else l)

/-- Model of `strings.Fields`. -/
def fieldsOf (line : String) : List String :=
  strFields line

/-- Embeds `extractCommands`: first token of each non-empty, non-comment line,
stripped of a leading `|`, `&&`, `||`, `;`, with `sudo X` / `su X` promoted to
`X`; duplicates collapse (the Go code collects into a map — set semantics; the
model keeps first-insertion order, which Go leaves unspecified). -/
def extractCommands (script : String) : List String :=
  (scanLines script).foldl
    (fun acc raw =>
      let line := strTrim raw
      if line = "" ∨ strStarts line "#" then acc
      else
        match fieldsOf line with
        | [] => acc
        | cmd0 :: rest =>
          let cmd := trimPrefixStr cmd0 "|"
          let cmd := trimPrefixStr cmd "&&"
          let cmd := trimPrefixStr cmd "||"
          let cmd := trimPrefixStr cmd ";"
          let cmd :=
            if cmd = "sudo" ∨ cmd = "su" then
              match rest with
              | r :: _ => r
              | [] => cmd
            else cmd
          if acc.contains cmd then acc else acc ++ [cmd])
    []

/-- The blocked/allowed command checks of `Validate` (steps after the size and
line caps), factored out so they can be named in statements. -/
def validateCommands (v : ScriptValidator) (script : String) : Except String Unit :=
  let commands := extractCommands script
  match commands.find? (fun cmd => v.blockedCommands.any (fun b => matchesCommand cmd b)) with
  | some cmd => .error ("blocked command detected: " ++ cmd)
  | none =>
    if v.allowedCommands.length > 0 then
      match commands.find?
          (fun cmd => ¬ v.allowedCommands.any (fun a => matchesCommand cmd a)) with
      | some cmd => .error ("command not in allowlist: " ++ cmd)
      | none => .ok ()
    else .ok ()

/-- The `TooLarge` message of `Validate`. -/
def tooLargeMsg (size : Nat) (maxSize : Int) : String :=
  s!"script too large: {size} bytes (max: {maxSize})"

/-- The `TooLong` message of `Validate`. -/
def tooLongMsg (nlines : Nat) (maxLines : Int) : String :=
  s!"script too long: {nlines} lines (max: {maxLines})"

/-- Embeds `ScriptValidator.Validate`: byte-size cap, then newline-split line
cap, then the command checks. -/
def ScriptValidator.validate (v : ScriptValidator) (script : String) : Except String Unit :=
  let size := (utf8Bytes script).length
  if (size : Int) > v.maxSize then
    .error (tooLargeMsg size v.maxSize)
  else
    let nlines := (splitNewlines script).length
    if (nlines : Int) > v.maxLines then
      .error (tooLongMsg nlines v.maxLines)
    else validateCommands v script

/-! ### Approval store and checker (`internal/approval`) -/

/-- Embeds the approval `Status` string constants. -/
inductive ApprovalStatus where
  | pending
  | approved
  | denied
  | expired
deriving DecidableEq, Repr

/-- String form of a status, as stored/printed by the Go code. -/
def ApprovalStatus.toStr : ApprovalStatus → String
  | .pending => "pending"
  | .approved => "approved"
  | .denied => "denied"
  | .expired => "expired"

/-- Embeds the approval `Request` record (times as integer nanoseconds). -/
structure ApprovalRequest where
  id : String
  executionID : String
  stepName : String
  runbookID : String
  user : String
  script : String
  scriptHash : String
  approvers : List String
  status : ApprovalStatus
  approvedBy : String
  approvedAt : Int
  deniedBy : String
  deniedAt : Int
  denialReason : String
  createdAt : Int
  expiresAt : Int
deriving DecidableEq, Repr

/-- A zero-valued approval request (Go zero values). -/
def emptyApprovalRequest : ApprovalRequest :=
  { id := "", executionID := "", stepName := "", runbookID := "", user := ""
    script := "", scriptHash := "", approvers := [], status := .pending
    approvedBy := "", approvedAt := 0, deniedBy := "", deniedAt := 0
    denialReason := "", createdAt := 0, expiresAt := 0 }

/-- Pure state of the `ConfigMapStore`: the backing configmap's data, keyed by
`{execution_id}-{step_name}` (JSON serialization modelled as identity). -/
abbrev ApprovalStore := List (String × ApprovalRequest)

/-- The store key `fmt.Sprintf("%s-%s", executionID, stepName)`. -/
def approvalKey (executionID stepName : String) : String :=
  executionID ++ "-" ++ stepName

/-- Association-list lookup in the store. -/
def storeLookup (st : ApprovalStore) (key : String) : Option ApprovalRequest :=
  match st with
  | [] => none
  | (k, v) :: rest => if k = key then some v else storeLookup rest key

/-- Map assignment `cm.Data[key] = value`: overwrite in place or append. -/
def storeInsert (st : ApprovalStore) (key : String) (req : ApprovalRequest) : ApprovalStore :=
  match st with
  | [] => [(key, req)]
  | (k, v) :: rest =>
    if k = key then (k, req) :: rest else (k, v) :: storeInsert rest key req

/-- Embeds `ConfigMapStore.Get` with its lazy expiration: a pending record past
its expiration is rewritten to `expired` (via `Update`) before being returned. -/
def storeGet (st : ApprovalStore) (now : Int) (executionID stepName : String) :
    Except String ApprovalRequest × ApprovalStore :=
  let key := approvalKey executionID stepName
  match storeLookup st key with
  | none => (.error "approval request not found", st)
  | some req =>
    if req.status = .pending ∧ now > req.expiresAt then
      let req' := { req with status := .expired }
      (.ok req', storeInsert st key req')
    else (.ok req, st)

/-- Embeds `ConfigMapStore.Update`. -/
def storeUpdate (st : ApprovalStore) (req : ApprovalRequest) : ApprovalStore :=
  storeInsert st (approvalKey req.executionID req.stepName) req

/-- Embeds `ConfigMapStore.Create`: stamps id, pending status, creation and
24-hour expiration times, then writes under the record's key. -/
def storeCreate (st : ApprovalStore) (now : Int) (req : ApprovalRequest) : ApprovalStore :=
  let req :=
    { req with
      id := req.executionID ++ "-" ++ req.stepName ++ "-" ++ toString now
      status := .pending
      createdAt := now
      expiresAt := now + 24 * 3600000000000 }
  storeInsert st (approvalKey req.executionID req.stepName) req

/-- Model of `strings.EqualFold` (ASCII case folding suffices for the service's
principal names). -/
def equalFold (a b : String) : Bool :=
  strLower a = strLower b

/-- Embeds `contains` from `checker.go`: case-insensitive membership. -/
def containsFold (slice : List String) (s : String) : Bool :=
  slice.any (fun v => equalFold v s)

/-- Embeds the `Checker` state (the store is passed explicitly). -/
structure ApprovalChecker where
  defaultApprovers : List String
deriving DecidableEq, Repr

/-- Embeds `Checker.CreateRequest`: empty approver list falls back to the
checker's defaults, then the store creates the pending record. -/
def checkerCreateRequest (c : ApprovalChecker) (st : ApprovalStore) (now : Int)
    (executionID stepName runbookID user script scriptHash : String)
    (approvers : List String) : ApprovalStore :=
  let approvers := if approvers.length = 0 then c.defaultApprovers else approvers
  storeCreate st now
    { emptyApprovalRequest with
      executionID := executionID, stepName := stepName, runbookID := runbookID
      user := user, script := script, scriptHash := scriptHash, approvers := approvers }

/-- Embeds `Checker.Check` (the Go method's script/hash/approvers/user
parameters are unused there): a missing record and `expired` both report
`pending`; `approved` and `denied` pass through. -/
def checkerCheck (st : ApprovalStore) (now : Int) (executionID stepName : String) :
    ApprovalStatus × ApprovalStore :=
  match storeGet st now executionID stepName with
  | (.error _, st') => (.pending, st')
  | (.ok req, st') =>
    match req.status with
    | .approved => (.approved, st')
    | .denied => (.denied, st')
    | .expired => (.pending, st')
    | .pending => (.pending, st')

/-- Embeds `Checker.Approve`: fetch (with lazy expiration), require `pending`
status, require case-insensitive approver membership, then write the approved
record back. -/
def checkerApprove (st : ApprovalStore) (now : Int)
    (executionID stepName approver : String) : Except String Unit × ApprovalStore :=
  match storeGet st now executionID stepName with
  | (.error e, st') => (.error e, st')
  | (.ok req, st') =>
    if req.status ≠ .pending then
      (.error ("cannot approve: status is " ++ req.status.toStr), st')
    else if ¬ containsFold req.approvers approver then
      (.error ("user " ++ approver ++ " is not authorized to approve"), st')
    else
      let req' := { req with status := .approved, approvedBy := approver, approvedAt := now }
      (.ok (), storeUpdate st' req')

/-! ### Cluster state (configmaps and secrets visible to the service) -/

/-- Pure snapshot of the configmaps and secrets the service reads; keyed by
`(namespace, name)`, each holding a string-keyed data map (secret byte values
are modelled by their decoded strings). -/
structure ClusterState where
  configMaps : List ((String × String) × List (String × String))
  secrets : List ((String × String) × List (String × String))

/-- Association-list lookup for string-keyed data. -/
def dataLookup (data : List (String × String)) (key : String) : Option String :=
  match data with
  | [] => none
  | (k, v) :: rest => if k = key then some v else dataLookup rest key

/-- Lookup of an object by `(namespace, name)`. -/
def objLookup (objs : List ((String × String) × List (String × String)))
    (nspace name : String) : Option (List (String × String)) :=
  match objs with
  | [] => none
  | (k, v) :: rest => if k = (nspace, name) then some v else objLookup rest nspace name

/-! ### Script loader (`internal/script/loader.go`, `registry.go`) -/

/-- Embeds `SourceType`. -/
inductive SourceType where
  | inline
  | configmap
  | secret
  | path
  | registry
deriving DecidableEq, Repr

/-- Embeds `Source` (zero values as field defaults). -/
structure Source where
  typ : SourceType
  content : String := ""
  path : String := ""
  name : String := ""
  key : String := ""
  nspace : String := ""
deriving DecidableEq, Repr

/-- Embeds `RegistryEntry`. -/
structure RegistryEntry where
  configmap : String := ""
  secret : String := ""
  key : String := ""
deriving DecidableEq, Repr

/-- Environment of the loader: its namespace, the cluster snapshot, and the
registry YAML deserializer.  `Modelled from the spec:` YAML parsing is the
external `yaml.v3` library; it is supplied as a function from the document to
the parsed id table (`none` for a malformed document). -/
structure LoaderEnv where
  nspace : String
  cluster : ClusterState
  parseRegistry : String → Option (List (String × RegistryEntry))

/-- Embeds `Loader.loadFromConfigMap` (shared shape with the registry's copy);
a missing object surfaces the platform lookup error. -/
def loadFromConfigMap (cl : ClusterState) (nspace name key : String) : Except String String :=
  match objLookup cl.configMaps nspace name with
  | none => .error ("configmaps \"" ++ name ++ "\" not found")
  | some data =>
    match dataLookup data key with
    | none =>
      .error ("key \"" ++ key ++ "\" not found in configmap " ++ nspace ++ "/" ++ name)
    | some content => .ok content

/-- Embeds `Loader.loadFromSecret`. -/
def loadFromSecret (cl : ClusterState) (nspace name key : String) : Except String String :=
  match objLookup cl.secrets nspace name with
  | none => .error ("secrets \"" ++ name ++ "\" not found")
  | some data =>
    match dataLookup data key with
    | none =>
      .error ("key \"" ++ key ++ "\" not found in secret " ++ nspace ++ "/" ++ name)
    | some content => .ok content

/-- Embeds `Loader.scriptPathExists`: the path must start with `/scripts/`,
carry a filename, and that filename must be a key of the fixed
`approved-scripts` configmap in the loader's namespace. -/
def scriptPathExists (env : LoaderEnv) (path : String) : Except String Bool :=
  if ¬ strStarts path "/scripts/" then
    .error "script_path must start with /scripts/"
  else
    let key := path.drop 9
    if key = "" then
      .error "script_path must include filename after /scripts/"
    else
      match objLookup env.cluster.configMaps env.nspace "approved-scripts" with
      | none => .error "configmaps \"approved-scripts\" not found"
      | some data =>
        match dataLookup data key with
        | none => .ok false
        | some _ => .ok true

/-- Association-list lookup in the parsed registry table. -/
def registryFind (scripts : List (String × RegistryEntry)) (id_ : String) :
    Option RegistryEntry :=
  match scripts with
  | [] => none
  | (k, v) :: rest => if k = id_ then some v else registryFind rest id_

/-- Embeds `Registry.getEntry`: fetch and parse `registry.yaml` from the fixed
`script-registry` configmap, then validate the entry names exactly one of
configmap or secret plus a key. -/
def registryGetEntry (env : LoaderEnv) (scriptID : String) : Except String RegistryEntry :=
  match objLookup env.cluster.configMaps env.nspace "script-registry" with
  | none => .error "get script-registry configmap: not found"
  | some data =>
    match dataLookup data "registry.yaml" with
    | none => .error "registry.yaml not found in script-registry configmap"
    | some yml =>
      match env.parseRegistry yml with
      | none => .error "parse registry.yaml: invalid document"
      | some scripts =>
        match registryFind scripts scriptID with
        | none => .error ("script not found in registry: " ++ scriptID)
        | some entry =>
          if (entry.configmap = "" ∧ entry.secret = "") ∨ entry.key = "" then
            .error ("invalid registry entry for " ++ scriptID ++
              ": must have configmap or secret and key")
          else if entry.configmap ≠ "" ∧ entry.secret ≠ "" then
            .error ("registry entry " ++ scriptID ++ " has both configmap and secret")
          else .ok entry

/-- Embeds `Registry.LoadByID`. -/
def registryLoadByID (env : LoaderEnv) (scriptID : String) :
    Except String (String × Source) :=
  match registryGetEntry env scriptID with
  | .error e => .error e
  | .ok entry =>
    if entry.configmap ≠ "" then
      match loadFromConfigMap env.cluster env.nspace entry.configmap entry.key with
      | .error e => .error e
      | .ok content =>
        .ok (content,
          { typ := .registry, content := content, name := entry.configmap
            key := entry.key, nspace := env.nspace })
    else if entry.secret ≠ "" then
      match loadFromSecret env.cluster env.nspace entry.secret entry.key with
      | .error e => .error e
      | .ok content =>
        .ok (content,
          { typ := .registry, content := content, name := entry.secret
            key := entry.key, nspace := env.nspace })
    else .error ("registry entry \"" ++ scriptID ++ "\" has neither configmap nor secret")

/-- Embeds the `script_from_configmap` branch body of `LoadScript`. -/
def loadViaConfigMapRef (env : LoaderEnv) (cmRef : PStruct) :
    Except String (String × Source) :=
  let cmName := getString cmRef "configmap_name" ""
  let key := getString cmRef "key" ""
  if cmName = "" ∨ key = "" then
    .error "script_from_configmap requires configmap_name and key"
  else
    let ns := getString cmRef "namespace" env.nspace
    match loadFromConfigMap env.cluster ns cmName key with
    | .error e => .error ("load from configmap: " ++ e)
    | .ok content =>
      .ok (content,
        { typ := .configmap, content := content, name := cmName, key := key, nspace := ns })

/-- Embeds the `script_from_secret` branch body of `LoadScript`. -/
def loadViaSecretRef (env : LoaderEnv) (secretRef : PStruct) :
    Except String (String × Source) :=
  let secretName := getString secretRef "secret_name" ""
  let key := getString secretRef "key" ""
  if secretName = "" ∨ key = "" then
    .error "script_from_secret requires secret_name and key"
  else
    let ns := getString secretRef "namespace" env.nspace
    match loadFromSecret env.cluster ns secretName key with
    | .error e => .error ("load from secret: " ++ e)
    | .ok content =>
      .ok (content,
        { typ := .secret, content := content, name := secretName, key := key, nspace := ns })

/-- Embeds the `script_path` branch body of `LoadScript`: content stays empty,
the workload runs the file from a mount. -/
def loadViaPath (env : LoaderEnv) (path : String) : Except String (String × Source) :=
  match scriptPathExists env path with
  | .error e => .error ("validate script path: " ++ e)
  | .ok false => .error ("script not found in approved-scripts: " ++ path)
  | .ok true => .ok ("", { typ := .path, path := path })

/-- Embeds the `script_id` branch body of `LoadScript`. -/
def loadViaRegistry (env : LoaderEnv) (scriptID : String) :
    Except String (String × Source) :=
  match registryLoadByID env scriptID with
  | .error e => .error ("load by script_id: " ++ e)
  | .ok r => .ok r

/-- The `NoSourceProvided` message of `LoadScript`. -/
def noSourceMsg : String :=
  "no script source provided (inline_script, script_from_configmap, " ++
  "script_from_secret, script_path, or script_id)"

/-- Branches 4–5 of `LoadScript` (`script_path` then `script_id`, else the
`NoSourceProvided` failure). -/
def loadScriptTail (env : LoaderEnv) (params : PStruct) : Except String (String × Source) :=
  let path := getString params "script_path" ""
  if path ≠ "" then loadViaPath env path
  else
    let scriptID := getString params "script_id" ""
    if scriptID ≠ "" then loadViaRegistry env scriptID
    else .error noSourceMsg

/-- Branches 3–5 of `LoadScript` (`script_from_secret` onwards). -/
def loadScriptAfterConfigMap (env : LoaderEnv) (params : PStruct) :
    Except String (String × Source) :=
  match getMap params "script_from_secret" with
  | some secretRef =>
    if secretRef.length > 0 then loadViaSecretRef env secretRef
    else loadScriptTail env params
  | none => loadScriptTail env params

/-- Embeds `Loader.LoadScript`: the five source modes tried in priority order
`inline_script`, `script_from_configmap`, `script_from_secret`, `script_path`,
`script_id`. -/
def loadScript (env : LoaderEnv) (params : PStruct) : Except String (String × Source) :=
  let inline := getString params "inline_script" ""
  if inline ≠ "" then
    .ok (inline, { typ := .inline, content := inline })
  else
    match getMap params "script_from_configmap" with
    | some cmRef =>
      if cmRef.length > 0 then loadViaConfigMapRef env cmRef
      else loadScriptAfterConfigMap env params
    | none => loadScriptAfterConfigMap env params

/-- Whether the `script_from_configmap` branch guard of `LoadScript` holds: the
sub-bag is present with at least one field. -/
def cmSourceSet (params : PStruct) : Bool :=
  match getMap params "script_from_configmap" with
  | some cmRef => decide (cmRef.length > 0)
  | none => false

/-- Whether the `script_from_secret` branch guard of `LoadScript` holds. -/
def secretSourceSet (params : PStruct) : Bool :=
  match getMap params "script_from_secret" with
  | some secretRef => decide (secretRef.length > 0)
  | none => false

/-! ### Execution context (`internal/execution/types.go`, `src/unnamed/part_002`) -/

/-- Embeds `SecretKeyRef`. -/
structure SecretKeyRef where
  secretName : String
  key : String
  optional : Bool
deriving DecidableEq, Repr

/-- Embeds `ConfigMapKeyRef`. -/
structure ConfigMapKeyRef where
  configMapName : String
  key : String
  optional : Bool
deriving DecidableEq, Repr

/-- Embeds `KeyToPath`. -/
structure KeyToPath where
  key : String
  path : String
  mode : Option Int
deriving DecidableEq, Repr

/-- Embeds `SecretVolume`. -/
structure SecretVolume where
  secretName : String
  mountPath : String
  optional : Bool
  items : List KeyToPath
deriving DecidableEq, Repr

/-- Embeds `ConfigMapVolume`. -/
structure ConfigMapVolume where
  configMapName : String
  mountPath : String
  optional : Bool
  items : List KeyToPath
deriving DecidableEq, Repr

/-- Embeds `execution.Context` (Go maps as association lists; the pass-through
platform types `corev1.Toleration` / `corev1.Affinity` are modelled by opaque
string tokens since the service never constructs or inspects them). -/
structure Context where
  executionID : String := ""
  runbookID : String := ""
  user : String := ""
  stepName : String := ""
  script : String := ""
  scriptSource : Option Source := none
  scriptHash : String := ""
  image : String := ""
  imagePullPolicy : String := ""
  imagePullSecret : String := ""
  interpreter : String := ""
  args : List String := []
  workingDir : String := ""
  timeout : Int := 0
  stdin : String := ""
  env : List (String × String) := []
  envFromSecret : List (String × SecretKeyRef) := []
  envFromConfigMap : List (String × ConfigMapKeyRef) := []
  secretEnvAll : List String := []
  configMapEnvAll : List String := []
  volumesFromSecret : List SecretVolume := []
  volumesFromConfigMap : List ConfigMapVolume := []
  nodeSelector : List (String × String) := []
  tolerations : List String := []
  affinity : Option String := none
  priorityClassName : String := ""
  resources : ResourceRequirements := emptyResources
  serviceAccount : String := ""
  ttlSecondsAfterFinished : Int := 0
  backoffLimit : Int := 0
  labels : List (String × String) := []
  annotations : List (String × String) := []
deriving DecidableEq, Repr

/-- Embeds `parsePullPolicy` from `internal/execution/params.go`: known values
pass through, everything else becomes `IfNotPresent`. -/
def parsePullPolicy (s : String) : String :=
  if s = "Always" ∨ s = "IfNotPresent" ∨ s = "Never" then s else "IfNotPresent"

/-- Embeds the inbound `executorv1.ExecutionContext` (the fields the service
reads). -/
structure ExecCtxProto where
  executionId : String := ""
  runbookId : String := ""
  user : String := ""
deriving DecidableEq, Repr

/-- Go `int32(n)` conversion (two's-complement wrap). -/
def toInt32 (n : Int) : Int :=
  (n + 2 ^ 31) % 2 ^ 32 - 2 ^ 31

/-- Map extraction loop `for k, v := range m.Fields { out[k] = v.GetStringValue() }`. -/
def stringMapOf (m : Option PStruct) : List (String × String) :=
  match m with
  | none => []
  | some fields => fields.map (fun kv => (kv.1, kv.2.getStringValue))

/-- Extraction of `env_from_secret`: sub-structs only, others skipped. -/
def envSecretRefsOf (m : Option PStruct) : List (String × SecretKeyRef) :=
  match m with
  | none => []
  | some fields =>
    fields.filterMap (fun kv =>
      match kv.2.getStructValue with
      | none => none
      | some s =>
        some (kv.1,
          { secretName := getString s "secret_name" ""
            key := getString s "key" ""
            optional := getBool s "optional" }))

/-- Extraction of `env_from_configmap`. -/
def envConfigMapRefsOf (m : Option PStruct) : List (String × ConfigMapKeyRef) :=
  match m with
  | none => []
  | some fields =>
    fields.filterMap (fun kv =>
      match kv.2.getStructValue with
      | none => none
      | some s =>
        some (kv.1,
          { configMapName := getString s "configmap_name" ""
            key := getString s "key" ""
            optional := getBool s "optional" }))

/-- Extraction of the `items` projection list of a volume entry. -/
def keyToPathsOf (s : PStruct) : List KeyToPath :=
  match getList s "items" with
  | none => []
  | some items =>
    items.filterMap (fun it =>
      match it.getStructValue with
      | none => none
      | some is_ => some { key := getString is_ "key" "", path := getString is_ "path" "", mode := none })

/-- Extraction of `volumes_from_secret`. -/
def secretVolumesOf (l : Option (List PValue)) : List SecretVolume :=
  match l with
  | none => []
  | some vs =>
    vs.filterMap (fun v =>
      match v.getStructValue with
      | none => none
      | some s =>
        some { secretName := getString s "secret_name" ""
               mountPath := getString s "mount_path" ""
               optional := getBool s "optional"
               items := keyToPathsOf s })

/-- Extraction of `volumes_from_configmap`. -/
def configMapVolumesOf (l : Option (List PValue)) : List ConfigMapVolume :=
  match l with
  | none => []
  | some vs =>
    vs.filterMap (fun v =>
      match v.getStructValue with
      | none => none
      | some s =>
        some { configMapName := getString s "configmap_name" ""
               mountPath := getString s "mount_path" ""
               optional := getBool s "optional"
               items := keyToPathsOf s })

/-- The pull-policy computation of `BuildContext` (its line 32 plus the
empty-value fallback at lines 48–50): parse the request parameter, fall back to
the configured default when the parsed value is empty. -/
def pullPolicyOf (params : PStruct) (cfg : Config) : String :=
  let pol := parsePullPolicy (getString params "image_pull_policy" "")
  if pol = "" then cfg.scriptExecutor.image.defaultImagePullPolicy else pol

/-- The timeout computation of `BuildContext` (lines 65–74): the `timeout`
parameter (default: the configured default-timeout string) is parsed; a zero
result falls back to `Config.DefaultTimeout()`. -/
def resolveTimeout (params : PStruct) (cfg : Config) : Except String Int :=
  let timeoutStr := getString params "timeout" cfg.scriptExecutor.security.defaultTimeout
  match parseDuration timeoutStr with
  | .error e => .error ("invalid timeout \"" ++ timeoutStr ++ "\": " ++ e)
  | .ok dur => .ok (if dur = 0 then cfg.defaultTimeoutDur else dur)

/-- Embeds `BuildContext` from `src/unnamed/part_002`.  The `imagePullPolicy`
argument is accepted and ignored exactly as in the source (the pull policy is
recomputed from the parameter bag).  `resource.MustParse` panics surface as a
distinguished error. -/
def buildContext (params : PStruct) (execCtx : Option ExecCtxProto)
    (scriptContent : String) (source : Option Source) (scriptHash : String)
    (image imagePullPolicy imagePullSecret : String) (cfg : Config) :
    Except String Context :=
  let _ := imagePullPolicy
  let se := cfg.scriptExecutor
  match resolveTimeout params cfg with
  | .error e => .error e
  | .ok timeout =>
    match buildResources params cfg with
    | none => .error "panic: resource.MustParse: invalid quantity"
    | some resources =>
      let ttl :=
        let t := getInt params "ttl_seconds_after_finished"
        if t > 0 then toInt32 t else toInt32 se.kubernetes.jobDefaults.ttlSecondsAfterFinished
      let backoff :=
        let bl := getInt params "backoff_limit"
        if bl ≥ 0 then
          let b := toInt32 bl
          if b > 3 then 3 else b
        else toInt32 se.kubernetes.jobDefaults.backoffLimit
      .ok
        { script := scriptContent
          scriptSource := source
          scriptHash := scriptHash
          image := image
          imagePullPolicy := pullPolicyOf params cfg
          imagePullSecret := imagePullSecret
          interpreter := getString params "interpreter" "/bin/bash"
          workingDir := getString params "working_dir" "/workspace"
          stdin := getString params "stdin" ""
          serviceAccount := se.kubernetes.serviceAccount
          ttlSecondsAfterFinished := ttl
          backoffLimit := backoff
          executionID := (execCtx.map (·.executionId)).getD ""
          runbookID := (execCtx.map (·.runbookId)).getD ""
          user := (execCtx.map (·.user)).getD ""
          args := (getStringSlice params "args").getD []
          timeout := timeout
          env := stringMapOf (getMap params "env")
          envFromSecret := envSecretRefsOf (getMap params "env_from_secret")
          envFromConfigMap := envConfigMapRefsOf (getMap params "env_from_configmap")
          secretEnvAll := (getStringSlice params "secret_env_all").getD []
          configMapEnvAll := (getStringSlice params "configmap_env_all").getD []
          volumesFromSecret := secretVolumesOf (getList params "volumes_from_secret")
          volumesFromConfigMap := configMapVolumesOf (getList params "volumes_from_configmap")
          nodeSelector := stringMapOf (getMap params "node_selector")
          resources := resources
          labels := stringMapOf (getMap params "labels")
          annotations := stringMapOf (getMap params "annotations")
          priorityClassName := getString params "priority_class_name" "" }

/-! ### Job manifest model and `JobBuilder` (`internal/execution/job_builder.go`) -/

/-- Embeds the container `corev1.SecurityContext` fields the builder sets. -/
structure ContainerSecurityContext where
  allowPrivilegeEscalation : Bool
  readOnlyRootFilesystem : Bool
  runAsNonRoot : Bool
  runAsUser : Int
  capabilitiesDrop : List String
deriving DecidableEq, Repr

/-- Embeds `corev1.EnvVarSource` (the two selectors the builder uses). -/
inductive EnvVarSource where
  | secretKeyRef (name key : String) (optional : Bool)
  | configMapKeyRef (name key : String) (optional : Bool)
deriving DecidableEq, Repr

/-- Embeds `corev1.EnvVar`. -/
structure EnvVar where
  name : String
  value : String := ""
  valueFrom : Option EnvVarSource := none
deriving DecidableEq, Repr

/-- Embeds `corev1.EnvFromSource`. -/
inductive EnvFromSource where
  | secretRef (name : String)
  | configMapRef (name : String)
deriving DecidableEq, Repr

/-- Embeds `corev1.VolumeMount`. -/
structure VolumeMount where
  name : String
  mountPath : String
  readOnly : Bool := false
deriving DecidableEq, Repr

/-- Embeds the `corev1.VolumeSource` variants the builder emits (empty-dir size
limits in milli-units). -/
inductive VolumeSource where
  | emptyDir (sizeLimit : Int)
  | configMap (name : String) (optional : Option Bool) (items : List KeyToPath)
  | secret (name : String) (optional : Option Bool) (items : List KeyToPath)
deriving DecidableEq, Repr

/-- Embeds `corev1.Volume`. -/
structure Volume where
  name : String
  source : VolumeSource
deriving DecidableEq, Repr

/-- Embeds `corev1.Container` (the fields the builder sets). -/
structure Container where
  name : String
  image : String
  imagePullPolicy : String
  workingDir : String
  command : List String
  args : List String
  env : List EnvVar
  envFrom : List EnvFromSource
  securityContext : ContainerSecurityContext
  resources : ResourceRequirements
  volumeMounts : List VolumeMount
  stdin : Bool
  stdinOnce : Bool
deriving DecidableEq, Repr

/-- Embeds the pod-level `corev1.PodSecurityContext` fields the builder sets. -/
structure PodSecurityContext where
  runAsNonRoot : Bool
  runAsUser : Int
  fsGroup : Int
  seccompProfileType : String
deriving DecidableEq, Repr

/-- Embeds the `batchv1.Job` manifest (flattened over its object meta, spec and
pod template, keeping every field the builder writes). -/
structure Job where
  name : String
  nspace : String
  labels : List (String × String)
  annotations : List (String × String)
  backoffLimit : Int
  ttlSecondsAfterFinished : Int
  activeDeadlineSeconds : Int
  podLabels : List (String × String)
  podAnnotations : List (String × String)
  restartPolicy : String
  serviceAccountName : String
  podSecurityContext : PodSecurityContext
  nodeSelector : List (String × String)
  tolerations : List String
  affinity : Option String
  priorityClassName : String
  containers : List Container
  volumes : List Volume
  imagePullSecrets : List String
deriving DecidableEq, Repr

/-- Map assignment on an association list (overwrite in place or append). -/
def assocInsert (m : List (String × String)) (k v : String) : List (String × String) :=
  match m with
  | [] => [(k, v)]
  | (k0, v0) :: rest =>
    if k0 = k then (k0, v) :: rest else (k0, v0) :: assocInsert rest k v

/-- The `for k, v := range extra { base[k] = v }` merge loops of `Build`. -/
def assocMerge (base extra : List (String × String)) : List (String × String) :=
  extra.foldl (fun acc kv => assocInsert acc kv.1 kv.2) base

/-- Embeds `sanitizeLabel` from `src/unnamed/part_002`: `/` and `.` become `-`,
then truncate to 63 characters. -/
def sanitizeLabel (s : String) : String :=
  let s := strReplaceChar '/' '-' s
  let s := strReplaceChar '.' '-' s
  if s.length > 63 then s.take 63 else s

/-- Embeds `JobBuilder.buildEnvVars`: literal pairs, then secret-key and
configmap-key references (entries with an empty name or key are skipped). -/
def buildEnvVars (ctx : Context) : List EnvVar :=
  (ctx.env.map (fun kv => { name := kv.1, value := kv.2 : EnvVar }))
  ++ ctx.envFromSecret.filterMap (fun nr =>
      if nr.2.secretName = "" ∨ nr.2.key = "" then none
      else
        some { name := nr.1
               valueFrom := some (.secretKeyRef nr.2.secretName nr.2.key nr.2.optional) })
  ++ ctx.envFromConfigMap.filterMap (fun nr =>
      if nr.2.configMapName = "" ∨ nr.2.key = "" then none
      else
        some { name := nr.1
               valueFrom := some (.configMapKeyRef nr.2.configMapName nr.2.key nr.2.optional) })

/-- Embeds `JobBuilder.buildEnvFrom`: whole-secret imports then whole-configmap
imports, skipping empty names. -/
def buildEnvFrom (ctx : Context) : List EnvFromSource :=
  ctx.secretEnvAll.filterMap (fun name =>
    if name ≠ "" then some (.secretRef name) else none)
  ++ ctx.configMapEnvAll.filterMap (fun name =>
    if name ≠ "" then some (.configMapRef name) else none)

/-- Whether the context's script source is path-mode. -/
def isPathSource (ctx : Context) : Bool :=
  match ctx.scriptSource with
  | some src => src.typ = .path
  | none => false

/-- Embeds `JobBuilder.buildVolumes`: `workspace` empty-dir sized to the
ephemeral-storage limit (1Gi when absent), `tmp` empty-dir at 100Mi, the
`approved-scripts` configmap for path mode, then the request's secret and
configmap volumes named `secret-i` / `configmap-i`. -/
def buildVolumes (ctx : Context) : List Volume :=
  let ephemeralLimit :=
    match ctx.resources.limits.ephemeralStorage with
    | some q => q
    | none => 1000 * 1024 ^ 3
  [⟨"workspace", .emptyDir ephemeralLimit⟩,
   ⟨"tmp", .emptyDir (100 * 1000 * 1024 ^ 2)⟩]
  ++ (if isPathSource ctx then
        [⟨"scripts", .configMap "approved-scripts" none []⟩]
      else [])
  ++ ctx.volumesFromSecret.enum.map (fun iv =>
      ⟨"secret-" ++ toString iv.1, .secret iv.2.secretName (some iv.2.optional) iv.2.items⟩)
  ++ ctx.volumesFromConfigMap.enum.map (fun iv =>
      ⟨"configmap-" ++ toString iv.1,
       .configMap iv.2.configMapName (some iv.2.optional) iv.2.items⟩)

/-- Embeds `JobBuilder.buildVolumeMounts`. -/
def buildVolumeMounts (ctx : Context) : List VolumeMount :=
  [{ name := "workspace", mountPath := "/workspace" },
   { name := "tmp", mountPath := "/tmp" }]
  ++ (if isPathSource ctx then
        [{ name := "scripts", mountPath := "/scripts", readOnly := true }]
      else [])
  ++ ctx.volumesFromSecret.enum.map (fun iv =>
      { name := "secret-" ++ toString iv.1, mountPath := iv.2.mountPath, readOnly := true })
  ++ ctx.volumesFromConfigMap.enum.map (fun iv =>
      { name := "configmap-" ++ toString iv.1, mountPath := iv.2.mountPath, readOnly := true })

/-- Embeds `JobBuilder.buildContainer`. -/
def buildContainer (cfg : Config) (ctx : Context) : Container :=
  let secCfg := cfg.scriptExecutor.security
  { name := "script"
    image := ctx.image
    imagePullPolicy := ctx.imagePullPolicy
    workingDir := ctx.workingDir
    env := buildEnvVars ctx
    envFrom := buildEnvFrom ctx
    securityContext :=
    { allowPrivilegeEscalation := false
      readOnlyRootFilesystem := secCfg.readOnlyRootFilesystem
      runAsNonRoot := secCfg.runAsNonRoot
      runAsUser := secCfg.runAsUser
      capabilitiesDrop := ["ALL"] }
    resources := ctx.resources
    volumeMounts := buildVolumeMounts ctx
    stdin := ctx.stdin ≠ ""
    stdinOnce := ctx.stdin ≠ ""
    command :=
      match ctx.scriptSource with
      | some src =>
        if src.typ = .path then [ctx.interpreter, src.path]
        else [ctx.interpreter, "-c", ctx.script]
      | none => [ctx.interpreter, "-c", ctx.script]
    args := ctx.args }

/-- The job-name computation of `Build`: `script-exec-{execution_id}`, falling
back to the current unix time when the execution id is empty. -/
def jobNameOf (ctx : Context) (now : Int) : String :=
  let n := "script-exec-" ++ ctx.executionID
  if n = "script-exec-" then "script-exec-" ++ toString now else n

/-- Embeds `JobBuilder.Build` (`now` supplies `metav1.Now()`, read only by the
empty-execution-id fallback of the job name).  The Go method also returns an
`error` which is always nil. -/
def build (cfg : Config) (ctx : Context) (now : Int) : Job :=
  let k8sCfg := cfg.scriptExecutor.kubernetes
  let secCfg := cfg.scriptExecutor.security
  let baseLabels :=
    [("executor", "script"), ("execution-id", ctx.executionID),
     ("runbook-id", ctx.runbookID), ("user", sanitizeLabel ctx.user),
     ("managed-by", "opscontrolroom")]
  let baseAnnotations :=
    [("script-hash", ctx.scriptHash), ("execution-id", ctx.executionID),
     ("runbook-id", ctx.runbookID), ("user", ctx.user), ("image", ctx.image),
     ("created-by", "script-executor")]
  { name := jobNameOf ctx now
    nspace := k8sCfg.nspace
    labels := assocMerge baseLabels ctx.labels
    annotations := assocMerge baseAnnotations ctx.annotations
    backoffLimit := ctx.backoffLimit
    ttlSecondsAfterFinished := ctx.ttlSecondsAfterFinished
    activeDeadlineSeconds := Int.tdiv ctx.timeout 1000000000
    podLabels := [("executor", "script"), ("execution-id", ctx.executionID)]
    podAnnotations := ctx.annotations
    restartPolicy := "Never"
    serviceAccountName := ctx.serviceAccount
    podSecurityContext :=
    { runAsNonRoot := secCfg.runAsNonRoot
      runAsUser := secCfg.runAsUser
      fsGroup := secCfg.fsGroup
      seccompProfileType := "RuntimeDefault" }
    nodeSelector := ctx.nodeSelector
    tolerations := ctx.tolerations
    affinity := ctx.affinity
    priorityClassName := ctx.priorityClassName
    containers := [buildContainer cfg ctx]
    volumes := buildVolumes ctx
    imagePullSecrets := if ctx.imagePullSecret ≠ "" then [ctx.imagePullSecret] else [] }

/-! ### SHA-256

`Modelled from the spec:` the service hashes script bytes with Go's
`crypto/sha256` and hex-encodes the digest; the library is outside the
repository, so the FIPS 180-4 algorithm is implemented here directly over
`Nat` words reduced mod `2^32`. -/

/-- Truncation to a 32-bit word. -/
def m32 (n : Nat) : Nat := n % 4294967296

/-- 32-bit right rotation. -/
def rotr32 (n x : Nat) : Nat := m32 ((x >>> n) ||| (x <<< (32 - n)))

/-- SHA-256 small sigma 0. -/
def sigma0 (x : Nat) : Nat := (rotr32 7 x) ^^^ (rotr32 18 x) ^^^ (x >>> 3)

/-- SHA-256 small sigma 1. -/
def sigma1 (x : Nat) : Nat := (rotr32 17 x) ^^^ (rotr32 19 x) ^^^ (x >>> 10)

/-- SHA-256 big sigma 0. -/
def bigSigma0 (x : Nat) : Nat := (rotr32 2 x) ^^^ (rotr32 13 x) ^^^ (rotr32 22 x)

/-- SHA-256 big sigma 1. -/
def bigSigma1 (x : Nat) : Nat := (rotr32 6 x) ^^^ (rotr32 11 x) ^^^ (rotr32 25 x)

/-- SHA-256 choice function. -/
def chNat (x y z : Nat) : Nat := (x &&& y) ^^^ ((x ^^^ 4294967295) &&& z)

/-- SHA-256 majority function. -/
def majNat (x y z : Nat) : Nat := (x &&& y) ^^^ (x &&& z) ^^^ (y &&& z)

/-- The SHA-256 round constants (FIPS 180-4, in decimal). -/
def sha256K : List Nat :=
  [1116352408, 1899447441, 3049323471, 3921009573, 961987163,
   1508970993, 2453635748, 2870763221, 3624381080, 310598401,
   607225278, 1426881987, 1925078388, 2162078206, 2614888103,
   3248222580, 3835390401, 4022224774, 264347078, 604807628,
   770255983, 1249150122, 1555081692, 1996064986, 2554220882,
   2821834349, 2952996808, 3210313671, 3336571891, 3584528711,
   113926993, 338241895, 666307205, 773529912, 1294757372,
   1396182291, 1695183700, 1986661051, 2177026350, 2456956037,
   2730485921, 2820302411, 3259730800, 3345764771, 3516065817,
   3600352804, 4094571909, 275423344, 430227734, 506948616,
   659060556, 883997877, 958139571, 1322822218, 1537002063,
   1747873779, 1955562222, 2024104815, 2227730452, 2361852424,
   2428436474, 2756734187, 3204031479, 3329325298]

/-- The SHA-256 initial hash value (FIPS 180-4, in decimal). -/
def sha256H0 : List Nat :=
  [1779033703, 3144134277, 1013904242, 2773480762, 1359893119,
   2600822924, 528734635, 1541459225]

/-- Big-endian bytes of a 64-bit length value. -/
def lenBytes64 (n : Nat) : List Nat :=
  [(n >>> 56) &&& 255, (n >>> 48) &&& 255, (n >>> 40) &&& 255, (n >>> 32) &&& 255,
   (n >>> 24) &&& 255, (n >>> 16) &&& 255, (n >>> 8) &&& 255, n &&& 255]

/-- SHA-256 message padding to a multiple of 64 bytes. -/
def sha256Pad (msg : List Nat) : List Nat :=
  let len := msg.length
  let padZeros := (119 - len % 64) % 64
  msg ++ [128] ++ List.replicate padZeros 0 ++ lenBytes64 (8 * len)

/-- Group bytes into big-endian 32-bit words. -/
def bytesToWords : List Nat → List Nat
  | a :: b :: c :: d :: rest => (a * 16777216 + b * 65536 + c * 256 + d) :: bytesToWords rest
  | _ => []

/-- Split a word list into 16-word blocks (fuel-driven). -/
def toBlocksFuel : Nat → List Nat → List (List Nat)
  | 0, _ => []
  | _, [] => []
  | fuel + 1, ws => ws.take 16 :: toBlocksFuel fuel (ws.drop 16)

/-- Extend a 16-word block to the 64-word message schedule. -/
def extendW (w : List Nat) : List Nat :=
  (List.range 48).foldl
    (fun w _ =>
      let n := w.length
      w ++ [m32 (sigma1 (w.getD (n - 2) 0) + w.getD (n - 7) 0 +
                 sigma0 (w.getD (n - 15) 0) + w.getD (n - 16) 0)])
    w

/-- One SHA-256 compression round on the 8-word working state. -/
def sha256Round (kt wt : Nat) : List Nat → List Nat
  | [a, b, c, d, e, f, g, h] =>
    let t1 := m32 (h + bigSigma1 e + chNat e f g + kt + wt)
    let t2 := m32 (bigSigma0 a + majNat a b c)
    [m32 (t1 + t2), a, b, c, m32 (d + t1), e, f, g]
  | st => st

/-- Compress one block into the running hash. -/
def sha256Compress (h : List Nat) (block : List Nat) : List Nat :=
  let w := extendW block
  let st := (sha256K.zip w).foldl (fun st kw => sha256Round kw.1 kw.2 st) h
  (h.zip st).map (fun p => m32 (p.1 + p.2))

/-- Big-endian bytes of a 32-bit word. -/
def wordBytes (w : Nat) : List Nat :=
  [w / 16777216 % 256, w / 65536 % 256, w / 256 % 256, w % 256]

/-- Lowercase hex digit. -/
def hexDigitChar (n : Nat) : Char :=
  if n < 10 then Char.ofNat (48 + n) else Char.ofNat (87 + n)

/-- Lowercase hex encoding of a byte list (`encoding/hex`). -/
def bytesToHex (bs : List Nat) : String :=
  String.mk ((bs.map (fun b => [hexDigitChar (b / 16), hexDigitChar (b % 16)])).flatten)

/-- SHA-256 digest of a string's UTF-8 bytes, hex-encoded — the composition
`hex.EncodeToString(sha256.Sum256([]byte(s))[:])` from `Execute`. -/
def sha256Hex (s : String) : String :=
  let bytes := sha256Pad (utf8Bytes s)
  let words := bytesToWords bytes
  let digest := (toBlocksFuel (words.length + 1) words).foldl sha256Compress sha256H0
  bytesToHex (digest.map wordBytes).flatten

/-! ### Image validator and resolver (`internal/image`) -/

/-- Embeds `Validator.matches`: trimmed pattern, star-suffix prefix match or
exact match, empty pattern never matches. -/
def imageMatches (image pattern : String) : Bool :=
  let pattern := strTrim pattern
  if pattern = "" then false
  else if strEnds pattern "*" then strStarts image (trimStarSuffix pattern)
  else image = pattern

/-- Embeds `image.Validator.Validate`: allow all when both lists are empty;
blocked patterns first; a non-empty approved list must match. -/
def validateImage (approved blocked : List String) (image : String) : Except String Unit :=
  if approved.length = 0 ∧ blocked.length = 0 then .ok ()
  else
    match blocked.find? (fun p => imageMatches image p) with
    | some p => .error ("image " ++ image ++ " is blocked (matches " ++ p ++ ")")
    | none =>
      if approved.length > 0 then
        if approved.any (fun p => imageMatches image p) then .ok ()
        else .error ("image " ++ image ++ " is not in approved list")
      else .ok ()

/-- Embeds `CatalogEntry`. -/
structure CatalogEntry where
  image : String := ""
  pullSecret : String := ""
  description : String := ""
  tools : List String := []
  approvedBy : String := ""
  approvedAt : String := ""
deriving DecidableEq, Repr

/-- Association-list lookup in the parsed catalog. -/
def catalogFind (entries : List (String × CatalogEntry)) (ref : String) :
    Option CatalogEntry :=
  match entries with
  | [] => none
  | (k, v) :: rest => if k = ref then some v else catalogFind rest ref

/-- Embeds `Catalog.Load`: fetch `catalog.yaml` from the catalog configmap in
the manager's namespace and parse it (`parseCatalog` supplies the external
YAML deserializer). -/
def catalogLoad (cl : ClusterState)
    (parseCatalog : String → Option (List (String × CatalogEntry)))
    (nspace catalogName : String) : Except String (List (String × CatalogEntry)) :=
  match objLookup cl.configMaps nspace catalogName with
  | none => .error "get image catalog configmap: not found"
  | some data =>
    match dataLookup data "catalog.yaml" with
    | none => .error ("catalog.yaml not found in configmap " ++ catalogName)
    | some yml =>
      match parseCatalog yml with
      | none => .error "parse catalog.yaml: invalid document"
      | some entries => .ok entries

/-- Embeds `ResolverDefaults`. -/
structure ResolverDefaults where
  image : String
  pullSecret : String
  pullPolicy : String
deriving DecidableEq, Repr

/-- Embeds `NewResolver`: an empty default pull policy becomes `IfNotPresent`. -/
def mkResolverDefaults (d : ResolverDefaults) : ResolverDefaults :=
  if d.pullPolicy = "" then { d with pullPolicy := "IfNotPresent" } else d

/-- Embeds `ResolvedImage`. -/
structure ResolvedImage where
  image : String
  pullSecret : String
  pullPolicy : String
deriving DecidableEq, Repr

/-- Embeds `Resolver.Resolve`: explicit `image` wins, then a catalog `image_ref`
(also supplying a pull secret), then the default image; pull secret falls back
from catalog to the request parameter to the default; pull policy from the
request parameter to the default. -/
def resolveImage (cl : ClusterState)
    (parseCatalog : String → Option (List (String × CatalogEntry)))
    (nspace catalogName : String) (defaults : ResolverDefaults)
    (image imageRef imagePullPolicy imagePullSecret : String) :
    Except String ResolvedImage :=
  let base : Except String (String × String) :=
    if image ≠ "" then .ok (image, "")
    else if imageRef ≠ "" then
      match catalogLoad cl parseCatalog nspace catalogName with
      | .error e => .error ("load image catalog: " ++ e)
      | .ok entries =>
        match catalogFind entries imageRef with
        | none => .error ("image_ref \"" ++ imageRef ++ "\" not found in catalog")
        | some entry =>
          .ok (entry.image, if entry.pullSecret ≠ "" then entry.pullSecret else "")
    else .ok (defaults.image, "")
  match base with
  | .error e => .error e
  | .ok (img, ps) =>
    let ps :=
      if ps = "" then
        if imagePullSecret ≠ "" then imagePullSecret else defaults.pullSecret
      else ps
    let pp := if imagePullPolicy ≠ "" then imagePullPolicy else defaults.pullPolicy
    .ok { image := img, pullSecret := ps, pullPolicy := pp }

/-! ### The `Execute` orchestration (`internal/execution/types.go`) -/

/-- Embeds the `Result` record the monitor returns. -/
structure MonitorResult where
  exitCode : Int
  stdout : String
  stderr : String
  durationNs : Int
  jobName : String
  podName : String
  succeeded : Bool
deriving DecidableEq, Repr

/-- The observable side effects of one `Execute` call, in order. -/
inductive Effect where
  | approvalGet (executionID stepName : String)
  | approvalCreate (executionID stepName : String)
  | jobSubmit (name : String)
deriving DecidableEq, Repr

/-- Embeds `executorv1.ExecuteRequest` (the fields the manager reads). -/
structure ExecuteRequest where
  parameters : Option PStruct := none
  context : Option ExecCtxProto := none
  timeout : Option Int := none

/-- Response status tri-state. -/
inductive RespStatus where
  | succeeded
  | failed
  | pending
deriving DecidableEq, Repr

/-- Embeds the `buildOutput` structure (the response's output record). -/
structure OutputStruct where
  exitCode : Int
  stdout : String
  stderr : String
  durationNs : Int
  scriptHash : String
  jobName : String
  podName : String
deriving DecidableEq, Repr

/-- Embeds `executorv1.ExecuteResponse` (the response latency field is not
modelled). -/
structure ExecuteResponse where
  status : RespStatus
  output : Option OutputStruct := none
  error : String := ""
deriving DecidableEq, Repr

/-- Embeds `errorResponse`. -/
def errorResponse (e : String) : ExecuteResponse :=
  { status := .failed, error := e }

/-- Embeds `buildOutput`. -/
def buildOutput (ctx : Context) (result : MonitorResult) : OutputStruct :=
  { exitCode := result.exitCode
    stdout := result.stdout
    stderr := result.stderr
    durationNs := result.durationNs
    scriptHash := ctx.scriptHash
    jobName := result.jobName
    podName := result.podName }

/-- The script validator `NewManager` constructs (allow-list is nil). -/
def managerValidator (cfg : Config) : ScriptValidator :=
  mkScriptValidator cfg.scriptExecutor.security.blockedCommands []
    cfg.scriptExecutor.security.maxScriptSize cfg.scriptExecutor.security.maxScriptLines

/-- The resolver defaults `NewManager` constructs. -/
def managerResolverDefaults (cfg : Config) : ResolverDefaults :=
  mkResolverDefaults
    { image := cfg.scriptExecutor.image.defaultImage
      pullSecret := cfg.scriptExecutor.image.defaultImagePullSecret
      pullPolicy := cfg.scriptExecutor.image.defaultImagePullPolicy }

/-- The manager's namespace (`NewManager` substitutes `default` for empty). -/
def managerNamespace (cfg : Config) : String :=
  if cfg.scriptExecutor.kubernetes.nspace = "" then "default"
  else cfg.scriptExecutor.kubernetes.nspace

/-- External-world inputs of one `Execute` call: the cluster snapshot, the YAML
deserializers, the clock (nanoseconds), and the outcomes of job submission and
monitoring. -/
structure ExecEnv where
  cluster : ClusterState
  parseRegistry : String → Option (List (String × RegistryEntry))
  parseCatalog : String → Option (List (String × CatalogEntry))
  clock : Int
  submitResult : Except String Unit
  monitorResult : Except String MonitorResult

/-- Steps 7–11 of `Execute`: build the execution context (overriding its
identifiers with the locally computed ones), build and submit the Job, wait,
and assemble the response. -/
def executeRun (cfg : Config) (env : ExecEnv) (store : ApprovalStore)
    (effs : List Effect) (params : PStruct) (execCtx : ExecCtxProto)
    (executionID runbookID user scriptContent : String) (source : Source)
    (scriptHash : String) (resolved : ResolvedImage) :
    ExecuteResponse × List Effect × ApprovalStore :=
  match buildContext params (some execCtx) scriptContent (some source) scriptHash
      resolved.image resolved.pullPolicy resolved.pullSecret cfg with
  | .error e => (errorResponse e, effs, store)
  | .ok ectx0 =>
    let ectx := { ectx0 with executionID := executionID, runbookID := runbookID, user := user }
    let job := build cfg ectx env.clock
    let effs := effs ++ [Effect.jobSubmit job.name]
    match env.submitResult with
    | .error e => (errorResponse ("create job: " ++ e), effs, store)
    | .ok () =>
      match env.monitorResult with
      | .error e => (errorResponse ("wait for job: " ++ e), effs, store)
      | .ok result =>
        let output := buildOutput ectx result
        if result.succeeded then
          ({ status := .succeeded, output := some output }, effs, store)
        else
          ({ status := .failed, output := some output
             error := "exit code " ++ toString result.exitCode }, effs, store)

/-- Embeds `Manager.Execute`: load, validate, hash, resolve and validate the
image, gate on approval (the checker exists iff approval is enabled in
configuration, per `NewManager`), then build, submit, monitor and respond. -/
def executeModel (cfg : Config) (env : ExecEnv) (store : ApprovalStore)
    (req : ExecuteRequest) : ExecuteResponse × List Effect × ApprovalStore :=
  let params := req.parameters.getD []
  let execCtx := req.context.getD {}
  let executionID :=
    if execCtx.executionId = "" then "exec-" ++ toString env.clock
    else execCtx.executionId
  let user := execCtx.user
  let runbookID := execCtx.runbookId
  let nspace := managerNamespace cfg
  let lenv : LoaderEnv :=
    { nspace := nspace, cluster := env.cluster, parseRegistry := env.parseRegistry }
  match loadScript lenv params with
  | .error e => (errorResponse e, [], store)
  | .ok (scriptContent, source) =>
    let valRes :=
      if source.typ ≠ .path ∧ scriptContent ≠ "" then
        (managerValidator cfg).validate scriptContent
      else .ok ()
    match valRes with
    | .error e => (errorResponse ("script validation: " ++ e), [], store)
    | .ok () =>
      let scriptHash := if scriptContent ≠ "" then sha256Hex scriptContent else ""
      let imageStr := getString params "image" ""
      let imageRef := getString params "image_ref" ""
      let imagePullPolicy := getString params "image_pull_policy" ""
      let imagePullSecret := getString params "image_pull_secret" ""
      match resolveImage env.cluster env.parseCatalog nspace
          cfg.scriptExecutor.image.catalog.configMapName (managerResolverDefaults cfg)
          imageStr imageRef imagePullPolicy imagePullSecret with
      | .error e => (errorResponse ("resolve image: " ++ e), [], store)
      | .ok resolved =>
        match validateImage cfg.scriptExecutor.image.approvedImages
            cfg.scriptExecutor.image.blockedImages resolved.image with
        | .error e => (errorResponse ("image validation: " ++ e), [], store)
        | .ok () =>
          let approvalRequired := getBool params "approval_required"
          if approvalRequired ∧ cfg.scriptExecutor.approval.enabled then
            let approvers0 := (getStringSlice params "approvers").getD []
            let approvers :=
              if approvers0.length = 0 then
                cfg.scriptExecutor.approval.defaultApprovers
              else approvers0
            let stepName := getString params "step_name" "default"
            let (status, store1) := checkerCheck store env.clock executionID stepName
            let effs := [Effect.approvalGet executionID stepName]
            match status with
            | .pending =>
              let checker : ApprovalChecker :=
                { defaultApprovers := cfg.scriptExecutor.approval.defaultApprovers }
              let store2 :=
                checkerCreateRequest checker store1 env.clock executionID stepName
                  runbookID user scriptContent scriptHash approvers
              ({ status := .pending, error := "Awaiting approval" },
               effs ++ [Effect.approvalCreate executionID stepName], store2)
            | .denied => (errorResponse "execution was denied", effs, store1)
            | _ =>
              executeRun cfg env store1 effs params execCtx executionID runbookID user
                scriptContent source scriptHash resolved
          else
            executeRun cfg env store [] params execCtx executionID runbookID user
              scriptContent source scriptHash resolved

/-! ### Concrete fixtures for witnesses and counterexamples -/

/-- An empty process environment. -/
def noEnv : EnvMap := fun _ => none

/-- The configuration `Load` produces with no file and no overrides. -/
def defCfg : Config := loadConfig noEnv none

/-- Parameters requesting a 100Gi ephemeral-storage limit. -/
def c1Params : PStruct :=
  [("resources", .structV [("limits", .structV [("ephemeral_storage", .strV "100Gi")])])]

/-- Parameters requesting a two-hour timeout. -/
def c5Params : PStruct := [("timeout", .strV "2h")]

/-- A pending approval record that expired at time 10. -/
def c4Req : ApprovalRequest :=
  { emptyApprovalRequest with
    executionID := "e1", stepName := "s1", approvers := ["alice"]
    status := .pending, expiresAt := 10 }

/-- Store holding the expired-pending record. -/
def c4Store : ApprovalStore := [(approvalKey "e1" "s1", c4Req)]

/-- A pending approval record that expires at time 100. -/
def c4wReq : ApprovalRequest := { c4Req with expiresAt := 100 }

/-- Store holding the live pending record. -/
def c4wStore : ApprovalStore := [(approvalKey "e1" "s1", c4wReq)]

/-- A file configuration lowering the script line cap to 3. -/
def c7FileCfg : Config :=
  { defCfg with scriptExecutor.security.maxScriptLines := 3 }

/-- The loaded configuration with a line cap of 3. -/
def c7Cfg : Config := loadConfig noEnv (some c7FileCfg)

/-- A 3-line script whose every line is the blocked command `rm`. -/
def c7Script : String := "rm\nrm\nrm"

/-- A loader environment over an empty cluster. -/
def c8Env : LoaderEnv :=
  { nspace := "ns1", cluster := { configMaps := [], secrets := [] }
    parseRegistry := fun _ => none }

/-- Parameters setting both `inline_script` and `script_path`. -/
def c8Params : PStruct :=
  [("inline_script", .strV "echo hi"), ("script_path", .strV "/scripts/x.sh")]

/-- A configuration with the approval subsystem disabled (constructed directly,
as `NewManagerWithClient` permits). -/
def c3Cfg : Config := { defCfg with scriptExecutor.approval.enabled := false }

/-- A request with an inline script, approval required, and an explicit image. -/
def c3Req : ExecuteRequest :=
  { parameters := some
      [("inline_script", .strV "echo hi"), ("approval_required", .boolV true),
       ("image", .strV "alpine:3")]
    context := some { executionId := "e1", runbookId := "r1", user := "u1" } }

/-- A successful monitor outcome. -/
def okMonitorResult : MonitorResult :=
  { exitCode := 0, stdout := "hi\n", stderr := "", durationNs := 1000000000
    jobName := "script-exec-e1", podName := "p1", succeeded := true }

/-- An execution environment over an empty cluster where submission and
monitoring succeed. -/
def c3Env : ExecEnv :=
  { cluster := { configMaps := [], secrets := [] }
    parseRegistry := fun _ => none, parseCatalog := fun _ => none
    clock := 0, submitResult := .ok (), monitorResult := .ok okMonitorResult }

/-- A cluster whose configmap `cm1` holds an empty script under key `k`. -/
def c9Cluster : ClusterState :=
  { configMaps := [(("opscontrolroom-system", "cm1"), [("k", "")])], secrets := [] }

/-- Environment for the empty-configmap-script run. -/
def c9Env : ExecEnv :=
  { cluster := c9Cluster
    parseRegistry := fun _ => none, parseCatalog := fun _ => none
    clock := 0, submitResult := .ok (), monitorResult := .ok okMonitorResult }

/-- A request whose script comes from the empty configmap value. -/
def c9Req : ExecuteRequest :=
  { parameters := some
      [("script_from_configmap",
        .structV [("configmap_name", .strV "cm1"), ("key", .strV "k")]),
       ("image", .strV "alpine:3")]
    context := some { executionId := "e2" } }

/-- Environment for the successful inline run of the C9 witness. -/
def c9wEnv : ExecEnv :=
  { cluster := { configMaps := [], secrets := [] }
    parseRegistry := fun _ => none, parseCatalog := fun _ => none
    clock := 0, submitResult := .ok (), monitorResult := .ok okMonitorResult }

/-- Request for the successful inline run of the C9 witness. -/
def c9wReq : ExecuteRequest :=
  { parameters := some [("inline_script", .strV "echo hi"), ("image", .strV "alpine:3")]
    context := some { executionId := "e3" } }

/-- The output record the C9 witness run produces. -/
def c9wOut : OutputStruct :=
  { exitCode := 0, stdout := "hi\n", stderr := "", durationNs := 1000000000
    scriptHash := sha256Hex "echo hi", jobName := "script-exec-e1", podName := "p1" }

/-- Parameters with a valid explicit pull policy. -/
def c6Params : PStruct := [("image_pull_policy", .strV "Never")]

/-- The context built from `c6Params` under the default configuration. -/
def c6Ctx : Context :=
  ((buildContext c6Params none "" none "" "" "" "" defCfg).toOption).getD {}

/-- A context with a nonempty execution id and otherwise default fields. -/
def c10Ctx : Context := { executionID := "x" }

/-! ### Configuration-load preservation lemmas -/

/-- Environment overrides only touch the gRPC port, the namespace and the
default image; the security section is preserved. -/
theorem applyEnvOverrides_security (cfg : Config) (env : EnvMap) :
    (applyEnvOverrides cfg env).scriptExecutor.security = cfg.scriptExecutor.security := by
  simp only [applyEnvOverrides]
  repeat' split
  all_goals rfl

/-- Environment overrides preserve the default image pull policy. -/
theorem applyEnvOverrides_pullPolicy (cfg : Config) (env : EnvMap) :
    (applyEnvOverrides cfg env).scriptExecutor.image.defaultImagePullPolicy =
      cfg.scriptExecutor.image.defaultImagePullPolicy := by
  simp only [applyEnvOverrides]
  repeat' split
  all_goals rfl

/-- Merging a file configuration never changes the security booleans. -/
theorem mergeConfig_security_bools (d s : Config) :
    (mergeConfig d s).scriptExecutor.security.runAsNonRoot =
      d.scriptExecutor.security.runAsNonRoot ∧
    (mergeConfig d s).scriptExecutor.security.readOnlyRootFilesystem =
      d.scriptExecutor.security.readOnlyRootFilesystem :=
  ⟨rfl, rfl⟩

/-- Every loadable configuration keeps the default security booleans true. -/
theorem loadConfig_security (env : EnvMap) (f : Option Config) :
    (loadConfig env f).scriptExecutor.security.runAsNonRoot = true ∧
    (loadConfig env f).scriptExecutor.security.readOnlyRootFilesystem = true := by
  unfold loadConfig
  cases f with
  | none =>
    rw [applyEnvOverrides_security]
    exact ⟨rfl, rfl⟩
  | some fc =>
    rw [applyEnvOverrides_security]
    exact ⟨(mergeConfig_security_bools _ _).1, (mergeConfig_security_bools _ _).2⟩

/-- Every loadable configuration keeps the default image pull policy at
`IfNotPresent` (neither `mergeConfig` nor the environment overrides touch it). -/
theorem loadConfig_pullPolicy (env : EnvMap) (f : Option Config) :
    (loadConfig env f).scriptExecutor.image.defaultImagePullPolicy = "IfNotPresent" := by
  unfold loadConfig
  cases f with
  | none =>
    rw [applyEnvOverrides_pullPolicy]
    rfl
  | some fc =>
    rw [applyEnvOverrides_pullPolicy]
    rfl

/-! ### Claim theorems -/

/-- C1: the claimed clamping invariant fails for ephemeral storage.  Under the
default configuration (whose declared ephemeral-storage maximum is 20Gi), a
requested limit of 100Gi passes through `buildResources` uncapped; only cpu and
memory are capped. -/
theorem c1_ephemeral_limit_uncapped :
    (buildResources c1Params defCfg).map (fun r => r.limits.ephemeralStorage)
      = some (some 107374182400000) ∧
    parseQuantity defCfg.scriptExecutor.kubernetes.maxResources.limits.ephemeralStorage
      = some 21474836480000 ∧
    (21474836480000 : Int) < 107374182400000 := by
  decide

/-- C2: for every loadable configuration, execution context and build time, the
manifest's single container carries the fixed security context:
`allow_privilege_escalation=false`, `read_only_root_filesystem=true`,
`run_as_non_root=true`, capabilities drop `[ALL]`. -/
theorem c2_container_security_fixed (fileCfg : Option Config) (env : EnvMap)
    (ctx : Context) (t : Int) :
    (build (loadConfig env fileCfg) ctx t).containers.map
        (fun c => (c.securityContext.allowPrivilegeEscalation,
                   c.securityContext.readOnlyRootFilesystem,
                   c.securityContext.runAsNonRoot,
                   c.securityContext.capabilitiesDrop))
      = [(false, true, true, ["ALL"])] := by
  have h := loadConfig_security env fileCfg
  simp [build, buildContainer, h.1, h.2]

/-- C5: the resolved timeout defaults to 5 minutes, but a supplied `2h` timeout
is not capped at the configured 30-minute maximum — it flows into the job's
active deadline as 7200 seconds. -/
theorem c5_timeout_default_but_uncapped :
    resolveTimeout [] defCfg = .ok 300000000000 ∧
    resolveTimeout c5Params defCfg = .ok 7200000000000 ∧
    ((buildContext c5Params none "" none "" "" "" "" defCfg).toOption.map
        (fun ctx => (build defCfg ctx 0).activeDeadlineSeconds)) = some 7200 ∧
    defCfg.maxTimeoutDur = 1800000000000 ∧
    (1800000000000 : Int) < 7200000000000 := by
  decide

/-- C10 counterexample: on a context with an empty execution id, `Build` embeds
the current time in the job name, so two invocations at different times give
different manifests. -/
theorem c10_build_time_dependent :
    build defCfg {} 1 ≠ build defCfg {} 2 := by
  decide

/-- C10 amended: on every context with a nonempty execution id, `Build` is
deterministic — its result does not depend on the build time. -/
theorem c10_build_deterministic (cfg : Config) (ctx : Context) (t1 t2 : Int)
    (h : ctx.executionID ≠ "") : build cfg ctx t1 = build cfg ctx t2 := by
  have hname : jobNameOf ctx t1 = jobNameOf ctx t2 := by
    unfold jobNameOf
    have hne : ("script-exec-" ++ ctx.executionID) ≠ "script-exec-" := by
      intro he
      apply h
      have hlen := congrArg String.length he
      rw [String.length_append] at hlen
      have h0 : ctx.executionID.length = 0 := by omega
      cases hexec : ctx.executionID with
      | mk l =>
        rw [hexec] at h0
        cases l with
        | nil => rfl
        | cons a as => simp [String.length, String.mk] at h0
    simp [hne]
  unfold build
  rw [hname]

/-- C10 witness: two builds of the same nonempty-id context agree. -/
theorem c10_build_deterministic_witness :
    build defCfg c10Ctx 1 = build defCfg c10Ctx 2 :=
  c10_build_deterministic defCfg c10Ctx 1 2 (by decide)

/-- C4 counterexample: on a stored record that is pending but past its
expiration, `Approve` by an authorized approver fails with the `NotPending`
error and the lazy expiration rewrite changes the stored record — contradicting
"in every failure case the stored record is unchanged". -/
theorem c4_expired_approve_mutates_store :
    storeLookup c4Store (approvalKey "e1" "s1") = some c4Req ∧
    c4Req.status = .pending ∧
    containsFold c4Req.approvers "alice" = true ∧
    checkerApprove c4Store 20 "e1" "s1" "alice" =
      (.error "cannot approve: status is expired",
       [(approvalKey "e1" "s1", { c4Req with status := .expired })]) ∧
    [(approvalKey "e1" "s1", { c4Req with status := .expired })] ≠ c4Store := by
  decide

/-- C4 amended: `Approve` succeeds exactly on a stored pending record that has
not passed its expiration and an approver who is a case-insensitive member of
its approver list.  A non-pending record fails with `NotPending` and an
unauthorized approver fails with `Unauthorized`, both leaving the store
unchanged; the one exception is a pending record past its expiration, which the
lookup rewrites to `expired` before `Approve` fails with `NotPending`. -/
theorem c4_approve_amended (st : ApprovalStore) (now : Int)
    (executionID stepName approver : String) (req : ApprovalRequest)
    (hfound : storeLookup st (approvalKey executionID stepName) = some req) :
    (req.status = .pending → now ≤ req.expiresAt →
      (containsFold req.approvers approver = true →
        checkerApprove st now executionID stepName approver =
          (.ok (), storeUpdate st
            { req with status := .approved, approvedBy := approver, approvedAt := now })) ∧
      (containsFold req.approvers approver = false →
        checkerApprove st now executionID stepName approver =
          (.error ("user " ++ approver ++ " is not authorized to approve"), st))) ∧
    (req.status ≠ .pending →
      checkerApprove st now executionID stepName approver =
        (.error ("cannot approve: status is " ++ req.status.toStr), st)) ∧
    (req.status = .pending → now > req.expiresAt →
      checkerApprove st now executionID stepName approver =
        (.error "cannot approve: status is expired",
         storeInsert st (approvalKey executionID stepName) { req with status := .expired })) := by
  simp only [checkerApprove, storeGet, hfound]
  refine ⟨fun hp hle => ⟨fun hc => ?_, fun hc => ?_⟩, fun hnp => ?_, fun hp hgt => ?_⟩
  · have hcond : ¬(req.status = .pending ∧ now > req.expiresAt) := by
      rintro ⟨-, hgt⟩; omega
    rw [if_neg hcond]
    simp [hp, hc, storeUpdate]
  · have hcond : ¬(req.status = .pending ∧ now > req.expiresAt) := by
      rintro ⟨-, hgt⟩; omega
    rw [if_neg hcond]
    simp [hp, hc]
  · have hcond : ¬(req.status = .pending ∧ now > req.expiresAt) := by
      rintro ⟨hq, -⟩; exact hnp hq
    rw [if_neg hcond]
    simp [hnp]
  · have hcond : req.status = .pending ∧ now > req.expiresAt := ⟨hp, hgt⟩
    rw [if_pos hcond]
    simp [ApprovalStatus.toStr]

/-- C4 witness: a case-insensitively authorized approval of a live pending
record succeeds and writes the approved record back. -/
theorem c4_approve_amended_witness :
    checkerApprove c4wStore 5 "e1" "s1" "ALICE" =
      (.ok (), storeUpdate c4wStore
        { c4wReq with status := .approved, approvedBy := "ALICE", approvedAt := 5 }) :=
  ((c4_approve_amended c4wStore 5 "e1" "s1" "ALICE" c4wReq (by decide)).1
    (by decide) (by decide)).1 (by decide)

/-- Inversion of a successful `BuildContext`: the pull policy, content hash and
timeout of the produced context. -/
theorem buildContext_ok_fields (params : PStruct) (execCtx : Option ExecCtxProto)
    (content : String) (src : Option Source) (hash img polArg ps : String)
    (cfg : Config) (ctx : Context)
    (h : buildContext params execCtx content src hash img polArg ps cfg = .ok ctx) :
    ctx.imagePullPolicy = pullPolicyOf params cfg ∧
    ctx.scriptHash = hash ∧
    resolveTimeout params cfg = .ok ctx.timeout := by
  unfold buildContext at h
  cases heq : resolveTimeout params cfg with
  | error e =>
    rw [heq] at h
    exact absurd h (by simp)
  | ok tmo =>
    rw [heq] at h
    cases hres : buildResources params cfg with
    | none =>
      rw [hres] at h
      exact absurd h (by simp)
    | some res =>
      rw [hres] at h
      try dsimp only at h
      injection h with hctx
      subst hctx
      exact ⟨rfl, rfl, rfl⟩

/-- C6: the pull policy of the built workload under any loadable configuration:
the request's `image_pull_policy` parameter when it is one of `Always`,
`IfNotPresent`, `Never`; otherwise the configured default pull policy (which
every loadable configuration pins to `IfNotPresent`); and `IfNotPresent`
whenever no default were configured.  The job's single container carries
exactly this policy. -/
theorem c6_pull_policy (fileCfg : Option Config) (env : EnvMap) (params : PStruct)
    (execCtx : Option ExecCtxProto) (content : String) (src : Option Source)
    (hash img polArg ps : String) (ctx : Context) (t : Int)
    (hctx : buildContext params execCtx content src hash img polArg ps
              (loadConfig env fileCfg) = .ok ctx) :
    ((getString params "image_pull_policy" "" = "Always" ∨
      getString params "image_pull_policy" "" = "IfNotPresent" ∨
      getString params "image_pull_policy" "" = "Never") →
      ctx.imagePullPolicy = getString params "image_pull_policy" "") ∧
    (¬(getString params "image_pull_policy" "" = "Always" ∨
       getString params "image_pull_policy" "" = "IfNotPresent" ∨
       getString params "image_pull_policy" "" = "Never") →
      ctx.imagePullPolicy =
        (loadConfig env fileCfg).scriptExecutor.image.defaultImagePullPolicy) ∧
    ((loadConfig env fileCfg).scriptExecutor.image.defaultImagePullPolicy = "" →
      ctx.imagePullPolicy = "IfNotPresent") ∧
    (build (loadConfig env fileCfg) ctx t).containers.map (fun c => c.imagePullPolicy) =
      [ctx.imagePullPolicy] := by
  have hpol := (buildContext_ok_fields params execCtx content src hash img polArg ps
    (loadConfig env fileCfg) ctx hctx).1
  have hdef := loadConfig_pullPolicy env fileCfg
  refine ⟨fun hmem => ?_, fun hmem => ?_, fun habs => ?_, by simp [build, buildContainer]⟩
  · rw [hpol]
    unfold pullPolicyOf parsePullPolicy
    rw [if_pos hmem]
    rcases hmem with h | h | h <;> rw [h] <;> rfl
  · rw [hpol]
    unfold pullPolicyOf parsePullPolicy
    rw [if_neg hmem, if_neg (by decide), hdef]
  · rw [hdef] at habs
    exact absurd habs (by decide)

/-- C6 witness: a valid `Never` parameter becomes the context's pull policy. -/
theorem c6_pull_policy_witness :
    c6Ctx.imagePullPolicy = getString c6Params "image_pull_policy" "" :=
  (c6_pull_policy none noEnv c6Params none "" none "" "" "" "" c6Ctx 0 (by decide)).1
    (by decide)

/-- C7 counterexample: under a loadable configuration with a line cap of 3, a
script of exactly 3 newline-delimited lines, well within the size cap, is
nevertheless rejected — its lines hold the blocked command `rm` — so "a script
with exactly the line cap of lines is accepted" fails as stated. -/
theorem c7_line_cap_counterexample :
    (managerValidator c7Cfg).maxLines = 3 ∧
    ((utf8Bytes c7Script).length : Int) ≤ (managerValidator c7Cfg).maxSize ∧
    (splitNewlines c7Script).length = 3 ∧
    (managerValidator c7Cfg).validate c7Script =
      .error "blocked command detected: rm" := by
  decide

/-- C7 amended: for a script within the byte-size cap, `Validate` at exactly
the line cap reduces to the command checks (so it accepts whenever they pass),
and one line over the cap fails with the `TooLong` error. -/
theorem c7_line_cap_amended (v : ScriptValidator) (s : String)
    (hsize : ((utf8Bytes s).length : Int) ≤ v.maxSize) :
    (((splitNewlines s).length : Int) = v.maxLines →
      v.validate s = validateCommands v s) ∧
    (((splitNewlines s).length : Int) = v.maxLines + 1 →
      v.validate s = .error (tooLongMsg (splitNewlines s).length v.maxLines)) := by
  unfold ScriptValidator.validate
  constructor
  · intro hl
    rw [if_neg (by omega), if_neg (by omega)]
  · intro hl
    rw [if_neg (by omega), if_pos (by omega)]

/-- C7 witness: one line over the cap is rejected with `TooLong`. -/
theorem c7_line_cap_amended_witness :
    (mkScriptValidator ["rm"] [] 100 2).validate "a\nb\nc" = .error (tooLongMsg 3 2) :=
  (c7_line_cap_amended (mkScriptValidator ["rm"] [] 100 2) "a\nb\nc" (by decide)).2
    (by decide)

/-- C8: `LoadScript` resolves sources in the fixed priority order
`inline_script`, `script_from_configmap`, `script_from_secret`, `script_path`,
`script_id` — whichever is set earliest wins regardless of the later fields —
and fails with `NoSourceProvided` when none of the five is provided. -/
theorem c8_source_priority (env : LoaderEnv) (params : PStruct) :
    (getString params "inline_script" "" ≠ "" →
      loadScript env params =
        .ok (getString params "inline_script" "",
             { typ := .inline, content := getString params "inline_script" "" })) ∧
    (getString params "inline_script" "" = "" → cmSourceSet params = true →
      loadScript env params =
        loadViaConfigMapRef env ((getMap params "script_from_configmap").getD [])) ∧
    (getString params "inline_script" "" = "" → cmSourceSet params = false →
      secretSourceSet params = true →
      loadScript env params =
        loadViaSecretRef env ((getMap params "script_from_secret").getD [])) ∧
    (getString params "inline_script" "" = "" → cmSourceSet params = false →
      secretSourceSet params = false → getString params "script_path" "" ≠ "" →
      loadScript env params = loadViaPath env (getString params "script_path" "")) ∧
    (getString params "inline_script" "" = "" → cmSourceSet params = false →
      secretSourceSet params = false → getString params "script_path" "" = "" →
      getString params "script_id" "" ≠ "" →
      loadScript env params = loadViaRegistry env (getString params "script_id" "")) ∧
    (getString params "inline_script" "" = "" → cmSourceSet params = false →
      secretSourceSet params = false → getString params "script_path" "" = "" →
      getString params "script_id" "" = "" →
      loadScript env params = .error noSourceMsg) := by
  have hcm : cmSourceSet params = true →
      loadScript env params = (if getString params "inline_script" "" ≠ "" then
        Except.ok (getString params "inline_script" "",
          { typ := .inline, content := getString params "inline_script" "" })
      else loadViaConfigMapRef env ((getMap params "script_from_configmap").getD [])) := by
    intro h
    unfold cmSourceSet at h
    unfold loadScript
    revert h
    cases hgm : getMap params "script_from_configmap" with
    | none => simp
    | some cmRef =>
      intro h
      have hlen : cmRef.length > 0 := of_decide_eq_true h
      by_cases hi : getString params "inline_script" "" ≠ "" <;>
        simp [hi, hlen, Option.getD]
  have hcmF : cmSourceSet params = false → getString params "inline_script" "" = "" →
      loadScript env params = loadScriptAfterConfigMap env params := by
    intro h hi
    unfold cmSourceSet at h
    unfold loadScript
    revert h
    cases hgm : getMap params "script_from_configmap" with
    | none => simp [hi]
    | some cmRef =>
      intro h
      have hlen : ¬ cmRef.length > 0 := of_decide_eq_false h
      simp [hi, hlen]
  have hsec : secretSourceSet params = true →
      loadScriptAfterConfigMap env params =
        loadViaSecretRef env ((getMap params "script_from_secret").getD []) := by
    intro h
    unfold secretSourceSet at h
    unfold loadScriptAfterConfigMap
    revert h
    cases hgm : getMap params "script_from_secret" with
    | none => simp
    | some secretRef =>
      intro h
      have hlen : secretRef.length > 0 := of_decide_eq_true h
      simp [hlen, Option.getD]
  have hsecF : secretSourceSet params = false →
      loadScriptAfterConfigMap env params = loadScriptTail env params := by
    intro h
    unfold secretSourceSet at h
    unfold loadScriptAfterConfigMap
    revert h
    cases hgm : getMap params "script_from_secret" with
    | none => simp
    | some secretRef =>
      intro h
      have hlen : ¬ secretRef.length > 0 := of_decide_eq_false h
      simp [hlen]
  refine ⟨fun hi => ?_, fun hi h2 => ?_, fun hi h2 h3 => ?_, fun hi h2 h3 h4 => ?_,
          fun hi h2 h3 h4 h5 => ?_, fun hi h2 h3 h4 h5 => ?_⟩
  · unfold loadScript
    rw [if_pos hi]
  · rw [hcm h2, if_neg (by simp [hi])]
  · rw [hcmF h2 hi, hsec h3]
  · rw [hcmF h2 hi, hsecF h3]
    unfold loadScriptTail
    rw [if_pos h4]
  · rw [hcmF h2 hi, hsecF h3]
    unfold loadScriptTail
    rw [if_neg (by simp [h4]), if_pos h5]
  · rw [hcmF h2 hi, hsecF h3]
    unfold loadScriptTail
    rw [if_neg (by simp [h4]), if_neg (by simp [h5])]

/-- C8 witness: with both `inline_script` and `script_path` set, the inline
source wins. -/
theorem c8_source_priority_witness :
    loadScript c8Env c8Params = .ok ("echo hi", { typ := .inline, content := "echo hi" }) :=
  (c8_source_priority c8Env c8Params).1 (by decide)

/-- The build-submit-monitor stage leaves the approval store untouched and adds
only job-submission effects. -/
theorem executeRun_store_effects (cfg : Config) (env : ExecEnv) (store : ApprovalStore)
    (effs : List Effect) (params : PStruct) (execCtx : ExecCtxProto)
    (eid rid u content : String) (src : Source) (hash : String)
    (resolved : ResolvedImage) :
    (executeRun cfg env store effs params execCtx eid rid u content src hash resolved).2.2
      = store ∧
    ∀ e ∈ (executeRun cfg env store effs params execCtx eid rid u content src hash
        resolved).2.1, e ∈ effs ∨ ∃ n, e = Effect.jobSubmit n := by
  unfold executeRun
  repeat' split
  all_goals
    first
    | exact ⟨rfl, fun e he => .inl he⟩
    | · refine ⟨rfl, fun e he => ?_⟩
        rcases List.mem_append.mp he with h | h
        · exact .inl h
        · exact .inr ⟨_, by simpa using h⟩

/-- On every path of the build-submit-monitor stage that produces an output
record, the record's content hash is the hash argument. -/
theorem executeRun_output_hash (cfg : Config) (env : ExecEnv) (store : ApprovalStore)
    (effs : List Effect) (params : PStruct) (execCtx : ExecCtxProto)
    (eid rid u content : String) (src : Source) (hash : String)
    (resolved : ResolvedImage) (o : OutputStruct)
    (h : (executeRun cfg env store effs params execCtx eid rid u content src hash
        resolved).1.output = some o) :
    o.scriptHash = hash := by
  unfold executeRun at h
  cases hb : buildContext params (some execCtx) content (some src) hash resolved.image
      resolved.pullPolicy resolved.pullSecret cfg with
  | error e =>
    rw [hb] at h
    simp [errorResponse] at h
  | ok ectx0 =>
    rw [hb] at h
    try dsimp only at h
    have hhash := (buildContext_ok_fields params (some execCtx) content (some src) hash
      resolved.image resolved.pullPolicy resolved.pullSecret cfg ectx0 hb).2.1
    cases hs : env.submitResult with
    | error e =>
      rw [hs] at h
      simp [errorResponse] at h
    | ok u0 =>
      rw [hs] at h
      try dsimp only at h
      cases hm : env.monitorResult with
      | error e =>
        rw [hm] at h
        simp [errorResponse] at h
      | ok result =>
        rw [hm] at h
        try dsimp only at h
        by_cases hsucc : result.succeeded = true <;>
          simp only [hsucc, if_true, if_false, Bool.false_eq_true, ite_false] at h <;>
          [skip; skip] <;>
          · injection h with ho
            rw [← ho]
            simpa [buildOutput] using hhash

/-- A successful `loadViaConfigMapRef` yields a configmap-typed source. -/
theorem loadViaConfigMapRef_typ (env : LoaderEnv) (m : PStruct) (c : String) (s : Source)
    (h : loadViaConfigMapRef env m = .ok (c, s)) : s.typ = .configmap := by
  unfold loadViaConfigMapRef at h
  try dsimp only at h
  split at h
  · exact absurd h (by simp)
  · split at h
    · exact absurd h (by simp)
    · cases Prod.mk.injEq .. ▸ Except.ok.inj h with
      | intro h1 h2 => rw [← h2]

/-- A successful `loadViaSecretRef` yields a secret-typed source. -/
theorem loadViaSecretRef_typ (env : LoaderEnv) (m : PStruct) (c : String) (s : Source)
    (h : loadViaSecretRef env m = .ok (c, s)) : s.typ = .secret := by
  unfold loadViaSecretRef at h
  try dsimp only at h
  split at h
  · exact absurd h (by simp)
  · split at h
    · exact absurd h (by simp)
    · cases Prod.mk.injEq .. ▸ Except.ok.inj h with
      | intro h1 h2 => rw [← h2]

/-- A successful `loadViaPath` returns empty content. -/
theorem loadViaPath_content (env : LoaderEnv) (p c : String) (s : Source)
    (h : loadViaPath env p = .ok (c, s)) : c = "" := by
  unfold loadViaPath at h
  split at h
  · exact absurd h (by simp)
  · exact absurd h (by simp)
  · cases Prod.mk.injEq .. ▸ Except.ok.inj h with
    | intro h1 h2 => rw [← h1]

/-- A successful `Registry.LoadByID` yields a registry-typed source. -/
theorem registryLoadByID_typ (env : LoaderEnv) (id_ c : String) (s : Source)
    (h : registryLoadByID env id_ = .ok (c, s)) : s.typ = .registry := by
  unfold registryLoadByID at h
  cases hg : registryGetEntry env id_ with
  | error e =>
    rw [hg] at h
    exact absurd h (by simp)
  | ok entry =>
    rw [hg] at h
    dsimp only at h
    by_cases h1 : entry.configmap ≠ ""
    · rw [if_pos h1] at h
      cases hc : loadFromConfigMap env.cluster env.nspace entry.configmap entry.key with
      | error e =>
        rw [hc] at h
        exact absurd h (by simp)
      | ok content =>
        rw [hc] at h
        cases Prod.mk.injEq .. ▸ Except.ok.inj h with
        | intro ha hb => rw [← hb]
    · rw [if_neg h1] at h
      by_cases h2 : entry.secret ≠ ""
      · rw [if_pos h2] at h
        cases hc : loadFromSecret env.cluster env.nspace entry.secret entry.key with
        | error e =>
          rw [hc] at h
          exact absurd h (by simp)
        | ok content =>
          rw [hc] at h
          cases Prod.mk.injEq .. ▸ Except.ok.inj h with
          | intro ha hb => rw [← hb]
      · rw [if_neg h2] at h
        exact absurd h (by simp)

/-- A successful `loadViaRegistry` yields a registry-typed source. -/
theorem loadViaRegistry_typ (env : LoaderEnv) (id_ c : String) (s : Source)
    (h : loadViaRegistry env id_ = .ok (c, s)) : s.typ = .registry := by
  unfold loadViaRegistry at h
  cases hr : registryLoadByID env id_ with
  | error e =>
    rw [hr] at h
    exact absurd h (by simp)
  | ok r =>
    rw [hr] at h
    cases Except.ok.inj h
    exact registryLoadByID_typ env id_ c s hr

/-- A path-typed source out of `LoadScript` carries no content. -/
theorem loadScript_path_content (env : LoaderEnv) (params : PStruct)
    (content : String) (src : Source)
    (h : loadScript env params = .ok (content, src)) (hp : src.typ = .path) :
    content = "" := by
  unfold loadScript loadScriptAfterConfigMap loadScriptTail at h
  try dsimp only at h
  split at h
  · cases Prod.mk.injEq .. ▸ Except.ok.inj h with
    | intro h1 h2 =>
      rw [← h2] at hp
      exact absurd hp (by simp)
  · split at h
    · split at h
      · exact absurd (loadViaConfigMapRef_typ _ _ _ _ h ▸ hp) (by decide)
      · split at h
        · split at h
          · exact absurd (loadViaSecretRef_typ _ _ _ _ h ▸ hp) (by decide)
          · split at h
            · exact loadViaPath_content _ _ _ _ h
            · split at h
              · exact absurd (loadViaRegistry_typ _ _ _ _ h ▸ hp) (by decide)
              · exact absurd h (by simp)
        · split at h
          · exact loadViaPath_content _ _ _ _ h
          · split at h
            · exact absurd (loadViaRegistry_typ _ _ _ _ h ▸ hp) (by decide)
            · exact absurd h (by simp)
    · split at h
      · split at h
        · exact absurd (loadViaSecretRef_typ _ _ _ _ h ▸ hp) (by decide)
        · split at h
          · exact loadViaPath_content _ _ _ _ h
          · split at h
            · exact absurd (loadViaRegistry_typ _ _ _ _ h ▸ hp) (by decide)
            · exact absurd h (by simp)
      · split at h
        · exact loadViaPath_content _ _ _ _ h
        · split at h
          · exact absurd (loadViaRegistry_typ _ _ _ _ h ▸ hp) (by decide)
          · exact absurd h (by simp)

/-- C3: with the approval subsystem disabled in configuration (so the manager's
checker is nil), a request with `approval_required=true` triggers no approval
lookup and no approval-record creation, leaves the approval store untouched,
and — once loading, validation and image resolution succeed — proceeds
directly to the build-and-submit stage, whose only effects are job
submissions. -/
theorem c3_disabled_approval_skips_gate (cfg : Config) (env : ExecEnv)
    (store : ApprovalStore) (req : ExecuteRequest) (content : String) (src : Source)
    (resolved : ResolvedImage)
    (hdis : cfg.scriptExecutor.approval.enabled = false)
    (hreq : getBool (req.parameters.getD []) "approval_required" = true)
    (hLoad : loadScript
        { nspace := managerNamespace cfg, cluster := env.cluster
          parseRegistry := env.parseRegistry } (req.parameters.getD []) =
        .ok (content, src))
    (hVal : (if src.typ ≠ .path ∧ content ≠ "" then
               (managerValidator cfg).validate content else .ok ()) = .ok ())
    (hResolve : resolveImage env.cluster env.parseCatalog (managerNamespace cfg)
        cfg.scriptExecutor.image.catalog.configMapName (managerResolverDefaults cfg)
        (getString (req.parameters.getD []) "image" "")
        (getString (req.parameters.getD []) "image_ref" "")
        (getString (req.parameters.getD []) "image_pull_policy" "")
        (getString (req.parameters.getD []) "image_pull_secret" "") = .ok resolved)
    (hImg : validateImage cfg.scriptExecutor.image.approvedImages
        cfg.scriptExecutor.image.blockedImages resolved.image = .ok ()) :
    executeModel cfg env store req =
      executeRun cfg env store [] (req.parameters.getD []) (req.context.getD {})
        (if (req.context.getD {}).executionId = "" then "exec-" ++ toString env.clock
         else (req.context.getD {}).executionId)
        (req.context.getD {}).runbookId (req.context.getD {}).user
        content src (if content ≠ "" then sha256Hex content else "") resolved ∧
    (executeModel cfg env store req).2.2 = store ∧
    ∀ e ∈ (executeModel cfg env store req).2.1, ∃ n, e = Effect.jobSubmit n := by
  have hmain : executeModel cfg env store req =
      executeRun cfg env store [] (req.parameters.getD []) (req.context.getD {})
        (if (req.context.getD {}).executionId = "" then "exec-" ++ toString env.clock
         else (req.context.getD {}).executionId)
        (req.context.getD {}).runbookId (req.context.getD {}).user
        content src (if content ≠ "" then sha256Hex content else "") resolved := by
    unfold executeModel
    simp only [hLoad, hVal, hResolve, hImg, hdis, hreq, and_false, if_false, Bool.false_eq_true,
      ite_false]
  have hrun := executeRun_store_effects cfg env store [] (req.parameters.getD [])
    (req.context.getD {})
    (if (req.context.getD {}).executionId = "" then "exec-" ++ toString env.clock
     else (req.context.getD {}).executionId)
    (req.context.getD {}).runbookId (req.context.getD {}).user
    content src (if content ≠ "" then sha256Hex content else "") resolved
  refine ⟨hmain, ?_, ?_⟩
  · rw [hmain]
    exact hrun.1
  · rw [hmain]
    intro e he
    rcases hrun.2 e he with h | h
    · exact absurd h (List.not_mem_nil e)
    · exact h

/-- C3 witness: a concrete disabled-approval run with `approval_required=true`
leaves the (empty) approval store untouched. -/
theorem c3_disabled_approval_witness :
    (executeModel c3Cfg c3Env [] c3Req).2.2 = ([] : ApprovalStore) :=
  (c3_disabled_approval_skips_gate c3Cfg c3Env [] c3Req "echo hi"
    { typ := .inline, content := "echo hi" }
    { image := "alpine:3", pullSecret := "", pullPolicy := "IfNotPresent" }
    (by decide) (by decide) (by decide) (by decide) (by decide) (by decide)).2.1

/-- C9 counterexample: a configmap script whose stored value is the empty
string reaches the hashing step, the run succeeds, and the response carries an
empty content hash — not the SHA-256 digest of the empty byte string the
loader returned. -/
theorem c9_empty_content_hash_mismatch :
    (executeModel defCfg c9Env [] c9Req).1.status = .succeeded ∧
    ((executeModel defCfg c9Env [] c9Req).1.output.map (fun o => o.scriptHash))
      = some "" ∧
    sha256Hex "" = "e3b0c44298fc1c149afbf4c8996fb92427ae41e4649b934ca495991b7852b855" ∧
    ("" : String) ≠ "e3b0c44298fc1c149afbf4c8996fb92427ae41e4649b934ca495991b7852b855" := by
  decide

/-- C9 amended: whenever `Execute` returns an output record, its content hash
equals the hex SHA-256 of the bytes the loader returned when those are
nonempty, and is the empty string otherwise — in particular for path-mode
sources, whose loader content is always empty. -/
theorem c9_hash_amended (cfg : Config) (env : ExecEnv) (store : ApprovalStore)
    (req : ExecuteRequest) (o : OutputStruct)
    (h : (executeModel cfg env store req).1.output = some o) :
    ∃ content src,
      loadScript
        { nspace := managerNamespace cfg, cluster := env.cluster
          parseRegistry := env.parseRegistry } (req.parameters.getD []) =
        .ok (content, src) ∧
      o.scriptHash = (if content ≠ "" then sha256Hex content else "") ∧
      (src.typ = .path → o.scriptHash = "") := by
  unfold executeModel at h
  try dsimp only at h
  cases hl : loadScript
      { nspace := managerNamespace cfg, cluster := env.cluster
        parseRegistry := env.parseRegistry } (req.parameters.getD []) with
  | error e =>
    rw [hl] at h
    simp [errorResponse] at h
  | ok cs =>
    obtain ⟨content, src⟩ := cs
    rw [hl] at h
    try dsimp only at h
    have hhash : o.scriptHash = (if content ≠ "" then sha256Hex content else "") := by
      cases hv : (if src.typ ≠ .path ∧ content ≠ "" then
          (managerValidator cfg).validate content else .ok ()) with
      | error e =>
        rw [hv] at h
        simp [errorResponse] at h
      | ok u0 =>
        rw [hv] at h
        try dsimp only at h
        cases hr : resolveImage env.cluster env.parseCatalog (managerNamespace cfg)
            cfg.scriptExecutor.image.catalog.configMapName (managerResolverDefaults cfg)
            (getString (req.parameters.getD []) "image" "")
            (getString (req.parameters.getD []) "image_ref" "")
            (getString (req.parameters.getD []) "image_pull_policy" "")
            (getString (req.parameters.getD []) "image_pull_secret" "") with
        | error e =>
          rw [hr] at h
          simp [errorResponse] at h
        | ok resolved =>
          rw [hr] at h
          try dsimp only at h
          cases hi : validateImage cfg.scriptExecutor.image.approvedImages
              cfg.scriptExecutor.image.blockedImages resolved.image with
          | error e =>
            rw [hi] at h
            simp [errorResponse] at h
          | ok u1 =>
            rw [hi] at h
            try dsimp only at h
            by_cases hgate : getBool (req.parameters.getD []) "approval_required" = true ∧
                cfg.scriptExecutor.approval.enabled = true
            · rw [if_pos hgate] at h
              try dsimp only at h
              rcases hchk : checkerCheck store env.clock
                  (if (req.context.getD {}).executionId = "" then
                    "exec-" ++ toString env.clock
                  else (req.context.getD {}).executionId)
                  (getString (req.parameters.getD []) "step_name" "default")
                with ⟨status, store1⟩
              rw [hchk] at h
              try dsimp only at h
              cases status with
              | pending => simp at h
              | denied => simp [errorResponse] at h
              | approved => exact executeRun_output_hash _ _ _ _ _ _ _ _ _ _ _ _ _ _ h
              | expired => exact executeRun_output_hash _ _ _ _ _ _ _ _ _ _ _ _ _ _ h
            · rw [if_neg hgate] at h
              exact executeRun_output_hash _ _ _ _ _ _ _ _ _ _ _ _ _ _ h
    refine ⟨content, src, rfl, hhash, fun hp => ?_⟩
    have hcontent : content = "" := loadScript_path_content _ _ _ _ hl hp
    rw [hcontent] at hhash
    simpa using hhash

/-- C9 witness: a successful inline run's output hash matches the hex SHA-256
of the loaded content. -/
theorem c9_hash_amended_witness :
    ∃ content src,
      loadScript
        { nspace := managerNamespace defCfg, cluster := c9wEnv.cluster
          parseRegistry := c9wEnv.parseRegistry } (c9wReq.parameters.getD []) =
        .ok (content, src) ∧
      c9wOut.scriptHash = (if content ≠ "" then sha256Hex content else "") ∧
      (src.typ = .path → c9wOut.scriptHash = "") :=
  c9_hash_amended defCfg c9wEnv [] c9wReq c9wOut (by decide)

end SE
